import Mathlib

/-!
Verification of the indicator retrieval-and-alignment pipeline of the
Census population simulator (`src/population simulator/app.py`).

The embedding models the two core pieces of the program:

* `fetch_vital_stats_data` — the fetch/normalize function (app.py lines 13-37).
  The HTTP layer is modelled by `HttpResponse`: either the underlying
  `requests.get` call raised (a transport failure), or it returned a body that
  either failed JSON parsing or parsed to a `Json` value.  Python exceptions
  that escape the function are modelled by `Except PyError`; the `print`
  diagnostics emitted on the handled failure paths are modelled by a
  `List String` of log messages returned alongside the result.

* the merge loop of `update_graphs` (app.py lines 86-93) — `mergeStep`,
  `mergeFold` and `mergeAll` model the fold that outer-joins the fetched
  tables on `['Country', 'Year']`, skipping empty tables and catching and
  reporting merge errors.

Pandas DataFrames are modelled by `DataFrame`: a list of column names plus a
list of rows of cells, where a cell is either a JSON value or the NaN/absent
marker `Cell.na`.
-/

namespace Census

/-! ### JSON values

`Json` models a value returned by `response.json()`.  Arrays and objects are
given by the mutually defined spine types `JsonList` and `JsonFields` so that
all functions over them are structurally recursive (and hence compute inside
the kernel). -/

mutual
inductive Json where
  | null
  | jbool (b : Bool)
  | num (n : Int)
  | jstr (s : String)
  | arr (elts : JsonList)
  | obj (fields : JsonFields)
inductive JsonList where
  | nil
  | cons (hd : Json) (tl : JsonList)
inductive JsonFields where
  | fnil
  | fcons (key : String) (jval : Json) (tl : JsonFields)
end

mutual
def Json.beq : Json → Json → Bool
  | .null, .null => true
  | .jbool a, .jbool b => a == b
  | .num a, .num b => a == b
  | .jstr a, .jstr b => a == b
  | .arr a, .arr b => JsonList.beq a b
  | .obj a, .obj b => JsonFields.beq a b
  | _, _ => false
def JsonList.beq : JsonList → JsonList → Bool
  | .nil, .nil => true
  | .cons x xs, .cons y ys => Json.beq x y && JsonList.beq xs ys
  | _, _ => false
def JsonFields.beq : JsonFields → JsonFields → Bool
  | .fnil, .fnil => true
  | .fcons k1 v1 xs, .fcons k2 v2 ys => k1 == k2 && Json.beq v1 v2 && JsonFields.beq xs ys
  | _, _ => false
end

mutual
def Json.beq_iff : (a b : Json) → (Json.beq a b = true ↔ a = b)
  | .null, .null => by simp [Json.beq]
  | .jbool _, .jbool _ => by simp [Json.beq]
  | .num _, .num _ => by simp [Json.beq]
  | .jstr _, .jstr _ => by simp [Json.beq]
  | .arr a, .arr b => by
      have h := JsonList.beq_iff a b
      simp [Json.beq, h]
  | .obj a, .obj b => by
      have h := JsonFields.beq_iff a b
      simp [Json.beq, h]
  | .null, .jbool _ => by simp [Json.beq]
  | .null, .num _ => by simp [Json.beq]
  | .null, .jstr _ => by simp [Json.beq]
  | .null, .arr _ => by simp [Json.beq]
  | .null, .obj _ => by simp [Json.beq]
  | .jbool _, .null => by simp [Json.beq]
  | .jbool _, .num _ => by simp [Json.beq]
  | .jbool _, .jstr _ => by simp [Json.beq]
  | .jbool _, .arr _ => by simp [Json.beq]
  | .jbool _, .obj _ => by simp [Json.beq]
  | .num _, .null => by simp [Json.beq]
  | .num _, .jbool _ => by simp [Json.beq]
  | .num _, .jstr _ => by simp [Json.beq]
  | .num _, .arr _ => by simp [Json.beq]
  | .num _, .obj _ => by simp [Json.beq]
  | .jstr _, .null => by simp [Json.beq]
  | .jstr _, .jbool _ => by simp [Json.beq]
  | .jstr _, .num _ => by simp [Json.beq]
  | .jstr _, .arr _ => by simp [Json.beq]
  | .jstr _, .obj _ => by simp [Json.beq]
  | .arr _, .null => by simp [Json.beq]
  | .arr _, .jbool _ => by simp [Json.beq]
  | .arr _, .num _ => by simp [Json.beq]
  | .arr _, .jstr _ => by simp [Json.beq]
  | .arr _, .obj _ => by simp [Json.beq]
  | .obj _, .null => by simp [Json.beq]
  | .obj _, .jbool _ => by simp [Json.beq]
  | .obj _, .num _ => by simp [Json.beq]
  | .obj _, .jstr _ => by simp [Json.beq]
  | .obj _, .arr _ => by simp [Json.beq]
def JsonList.beq_iff : (a b : JsonList) → (JsonList.beq a b = true ↔ a = b)
  | .nil, .nil => by simp [JsonList.beq]
  | .cons x xs, .cons y ys => by
      have h1 := Json.beq_iff x y
      have h2 := JsonList.beq_iff xs ys
      simp [JsonList.beq, h1, h2]
  | .nil, .cons _ _ => by simp [JsonList.beq]
  | .cons _ _, .nil => by simp [JsonList.beq]
def JsonFields.beq_iff : (a b : JsonFields) → (JsonFields.beq a b = true ↔ a = b)
  | .fnil, .fnil => by simp [JsonFields.beq]
  | .fcons k1 v1 xs, .fcons k2 v2 ys => by
      have h1 := Json.beq_iff v1 v2
      have h2 := JsonFields.beq_iff xs ys
      simp [JsonFields.beq, h1, h2, and_assoc]
  | .fnil, .fcons _ _ _ => by simp [JsonFields.beq]
  | .fcons _ _ _, .fnil => by simp [JsonFields.beq]
end

instance : DecidableEq Json := fun a b => decidable_of_iff _ (Json.beq_iff a b)

/-- The elements of a JSON array, as an ordinary list. -/
def JsonList.toList : JsonList → List Json
  | .nil => []
  | .cons x xs => x :: xs.toList

/-- Build a JSON array spine from an ordinary list. -/
def JsonList.ofList : List Json → JsonList
  | [] => .nil
  | x :: xs => .cons x (JsonList.ofList xs)

/-- The fields of a JSON object, as an ordinary association list. -/
def JsonFields.toList : JsonFields → List (String × Json)
  | .fnil => []
  | .fcons k v tl => (k, v) :: tl.toList

/-- Python `d.get(key)` on a parsed JSON object: the value of the first field
with the given key, if any (parsed JSON objects have unique keys). -/
def lookupField : JsonFields → String → Option Json
  | .fnil, _ => none
  | .fcons k v tl, c => if k = c then some v else lookupField tl c

/-- Python `isinstance(x, list)`. -/
def Json.isArr : Json → Bool
  | .arr _ => true
  | _ => false

/-- Python `isinstance(x, dict)`. -/
def Json.isObj : Json → Bool
  | .obj _ => true
  | _ => false

/-! ### DataFrames

A pandas DataFrame is modelled by its column names and its rows; each row is
a list of cells aligned with the columns.  `Cell.na` is the NaN/absent
marker pandas fills in for missing values. -/

inductive Cell where
  | val (j : Json)
  | na
  deriving DecidableEq

structure DataFrame where
  cols : List String
  rows : List (List Cell)
  deriving DecidableEq

/-- `pd.DataFrame()`: the empty frame with no columns and no rows. -/
def emptyDF : DataFrame := ⟨[], []⟩

/-- `df.empty`: true when either axis has length zero. -/
def DataFrame.isEmpty (df : DataFrame) : Bool :=
  df.rows.isEmpty || df.cols.isEmpty

/-- The cell of `row` in the column named `c` (positional lookup of the first
column with that name; `Cell.na` when the column is absent or the row is too
short). -/
def getCell : List String → List Cell → String → Cell
  | [], _, _ => Cell.na
  | c :: cs, row, target =>
      if c = target then row.headD Cell.na else getCell cs row.tail target

/-- The cells of one named column, top to bottom. -/
def getColCells (df : DataFrame) (c : String) : List Cell :=
  df.rows.map (fun r => getCell df.cols r c)

/-- Python exceptions that can escape the modelled code. -/
inductive PyError where
  | requestException
  | valueError (msg : String)
  | typeError (msg : String)
  | keyError (key : String)
  | indexError
  | attributeError (msg : String)
  deriving DecidableEq

def exceptIsOk {α : Type} : Except PyError α → Bool
  | .ok _ => true
  | .error _ => false

def exceptIsError {α : Type} : Except PyError α → Bool
  | .ok _ => false
  | .error _ => true

/-! ### The fetcher (`fetch_vital_stats_data`, app.py lines 13-37) -/

/-- Python `len(data)`: defined on lists, dicts and strings, a `TypeError`
otherwise. -/
def pyLen : Json → Except PyError Nat
  | .arr l => .ok l.toList.length
  | .obj fs => .ok fs.toList.length
  | .jstr s => .ok s.length
  | _ => .error (.typeError "object has no len")

/-- Python `data[i]` for a non-negative integer `i`: list indexing, a
`KeyError` on dicts (whose parsed-JSON keys are strings, never the integer
`i`), single-character extraction on strings, a `TypeError` otherwise. -/
def pyIndex : Json → Nat → Except PyError Json
  | .arr l, i =>
      match l.toList[i]? with
      | some v => .ok v
      | none => .error .indexError
  | .obj _, _ => .error (.keyError "1")
  | .jstr s, i =>
      match s.data[i]? with
      | some ch => .ok (.jstr (String.mk [ch]))
      | none => .error .indexError
  | _, _ => .error (.typeError "not subscriptable")

/-- Column collection of `pd.DataFrame(records)`: the union of the records'
keys in order of first appearance.  Records that are not JSON objects
contribute no columns (the provider's records are objects; non-object
records are not exercised below). -/
def collectColsStep (acc : List String) (r : Json) : List String :=
  match r with
  | .obj fs => fs.toList.foldl (fun a p => if p.1 ∈ a then a else a ++ [p.1]) acc
  | _ => acc

def collectCols (records : List Json) : List String :=
  records.foldl collectColsStep []

/-- The row `pd.DataFrame(records)` builds for one record: the record's value
in each column, `NaN` where the record lacks the key. -/
def recordRow (cols : List String) (r : Json) : List Cell :=
  cols.map (fun c =>
    match r with
    | .obj fs =>
        match lookupField fs c with
        | some v => .val v
        | none => .na
    | _ => .na)

/-- `pd.DataFrame(records)` for a list of parsed JSON records. -/
def mkDataFrame (records : List Json) : DataFrame :=
  ⟨collectCols records, records.map (recordRow (collectCols records))⟩

/-- `isinstance(df['country'][0], dict)` on a cell. -/
def isDictCell : Cell → Bool
  | .val (.obj _) => true
  | _ => false

/-- The lambda `x.get('value', 'Unknown')` applied to one cell: dicts answer
with their `value` field (default `"Unknown"`); any other value (a plain
string, a number, NaN, ...) has no `.get` method and raises
`AttributeError`. -/
def pyGetValue : Cell → Except PyError Cell
  | .val (.obj fs) => .ok (.val ((lookupField fs "value").getD (.jstr "Unknown")))
  | _ => .error (.attributeError "object has no attribute get")

/-- `df[c] = cells`: overwrite the column when it exists, otherwise append it
as the last column. -/
def setCol (df : DataFrame) (c : String) (cells : List Cell) : DataFrame :=
  match df.cols.findIdx? (· = c) with
  | some i => ⟨df.cols, (df.rows.zip cells).map (fun p => p.1.set i p.2)⟩
  | none => ⟨df.cols ++ [c], (df.rows.zip cells).map (fun p => p.1 ++ [p.2])⟩

/-- `df.rename(columns={old: nw})`: a no-op when the column is absent. -/
def renameCol (df : DataFrame) (old nw : String) : DataFrame :=
  ⟨df.cols.map (fun c => if c = old then nw else c), df.rows⟩

/-- `df.rename(columns=m)` for a simultaneous mapping. -/
def renameCols (df : DataFrame) (m : List (String × String)) : DataFrame :=
  ⟨df.cols.map (fun c => (m.lookup c).getD c), df.rows⟩

/-- The branch at app.py lines 28-32: if the `country` column exists and its
FIRST entry is a dict, map every entry through `x.get('value', 'Unknown')`
into a new `Country` column; otherwise rename `country` to `Country`. -/
def normCountry (df : DataFrame) : Except PyError DataFrame :=
  if df.cols.contains "country" && isDictCell (getCell df.cols (df.rows.headD []) "country") then
    (df.rows.mapM (fun r => pyGetValue (getCell df.cols r "country"))).map
      (fun cells => setCol df "Country" cells)
  else
    .ok (renameCol df "country" "Country")

/-- `df[cs]`: column projection, a `KeyError` when any requested column is
missing (this is how pandas fails on `df[['Country', 'date', 'value']]` for
a frame without those columns). -/
def project (df : DataFrame) (cs : List String) : Except PyError DataFrame :=
  if cs.all (fun c => df.cols.contains c) then
    .ok ⟨cs, df.rows.map (fun r => cs.map (fun c => getCell df.cols r c))⟩
  else
    .error (.keyError "columns not in index")

def digitsVal (l : List Char) : Nat :=
  l.foldl (fun a c => a * 10 + (c.toNat - 48)) 0

/-- Python `int(s)` on a string: an optional sign followed by digits
(surrounding whitespace, also accepted by Python, is elided). -/
def parsePyInt (s : String) : Option Int :=
  match s.data with
  | [] => none
  | '-' :: rest =>
      if rest ≠ [] ∧ rest.all Char.isDigit then some (-(digitsVal rest : Int)) else none
  | '+' :: rest =>
      if rest ≠ [] ∧ rest.all Char.isDigit then some ((digitsVal rest : Int)) else none
  | l => if l.all Char.isDigit then some ((digitsVal l : Int)) else none

/-- Coercion of one cell by `.astype(int)`: integers stay, booleans become
0/1, strings are parsed, and everything else (NaN, None, nested values)
raises. -/
def coerceInt : Cell → Except PyError Cell
  | .val (.num n) => .ok (.val (.num n))
  | .val (.jbool b) => .ok (.val (.num (if b then 1 else 0)))
  | .val (.jstr s) =>
      match parsePyInt s with
      | some n => .ok (.val (.num n))
      | none => .error (.valueError ("invalid literal for int: " ++ s))
  | _ => .error (.valueError "cannot convert to int")

/-- `df[c] = df[c].astype(int)`: coerce every cell of the column, raising on
the first cell that cannot be coerced (so one bad cell fails the whole
conversion). -/
def astypeIntCol (df : DataFrame) (c : String) : Except PyError DataFrame :=
  match df.cols.findIdx? (· = c) with
  | none => .error (.keyError c)
  | some i =>
      (df.rows.mapM (fun r => (coerceInt (r.getD i .na)).map (fun cell => r.set i cell))).map
        (fun rows => ⟨df.cols, rows⟩)

/-- App.py lines 25-37: build the DataFrame from the record list, normalize
the country column, project to the canonical columns, rename them, and
coerce the year column to integers. -/
def normalizeRecords (indicator_code : String) (records : List Json) : Except PyError DataFrame := do
  let df ← normCountry (mkDataFrame records)
  let df ← project df ["Country", "date", "value"]
  astypeIntCol (renameCols df [("date", "Year"), ("value", indicator_code)]) "Year"

/-- The outcome of the `requests.get` call: either the call itself raised
(network error, timeout, connection error), or it produced a body whose JSON
parse failed (`body none`, making `response.json()` raise `ValueError`), or
it parsed to a JSON value (`body (some j)`). -/
inductive HttpResponse where
  | transportError
  | body (json : Option Json)

/-- `fetch_vital_stats_data` (app.py lines 13-37).  Returns the Python
result — a DataFrame, or the exception that escaped the function — together
with the list of diagnostic messages printed along the way.  Note that only
`response.json()` is inside the `try`, so a transport failure from
`requests.get` propagates. -/
def fetch_vital_stats_data (indicator_code : String) (country : String)
    (resp : HttpResponse) : Except PyError DataFrame × List String :=
  match resp with
  | .transportError => (.error .requestException, [])
  | .body none => (.ok emptyDF, ["Invalid JSON response"])
  | .body (some data) =>
      match pyLen data with
      | .error e => (.error e, [])
      | .ok n =>
          if n < 2 then
            (.ok emptyDF, ["No data available for " ++ indicator_code ++ " in " ++ country])
          else
            match pyIndex data 1 with
            | .error e => (.error e, [])
            | .ok elt1 =>
                match elt1 with
                | .arr l => (normalizeRecords indicator_code l.toList, [])
                | _ =>
                    (.ok emptyDF,
                      ["No data available for " ++ indicator_code ++ " in " ++ country])

/-! ### The merge loop (`update_graphs`, app.py lines 86-93) -/

/-- The compound join key `['Country', 'Year']`. -/
def mergeKeys : List String := ["Country", "Year"]

/-- The (Country, Year) key of one row. -/
def rowKey (cols : List String) (row : List Cell) : Cell × Cell :=
  (getCell cols row "Country", getCell cols row "Year")

/-- The list of (Country, Year) keys of a frame, top to bottom. -/
def dfKeys (df : DataFrame) : List (Cell × Cell) :=
  df.rows.map (rowKey df.cols)

/-- The non-key cells of a row, in column order. -/
def rowNonKey (cols : List String) (row : List Cell) : List Cell :=
  ((cols.zip row).filter (fun p => decide (p.1 ∉ mergeKeys))).map (·.2)

/-- Pandas suffixing of overlapping non-key column labels (`_x` on the left
frame, `_y` on the right frame). -/
def suffixShared (own other : List String) (sfx : String) : List String :=
  own.map (fun c => if c ∉ mergeKeys ∧ c ∈ other then c ++ sfx else c)

/-- The right frame's non-key columns as they appear in the join result
(suffixed with `_y` where they overlap a left non-key column). -/
def rightNonKeyCols (l r : DataFrame) : List String :=
  ((r.cols.zip (suffixShared r.cols l.cols "_y")).filter
    (fun p => decide (p.1 ∉ mergeKeys))).map (·.2)

/-- The columns of the outer join: left columns (suffixed where shared)
followed by the right non-key columns. -/
def joinCols (l r : DataFrame) : List String :=
  suffixShared l.cols r.cols "_x" ++ rightNonKeyCols l r

/-- The rows of `r` whose (Country, Year) key equals `k`. -/
def matchingRows (r : DataFrame) (k : Cell × Cell) : List (List Cell) :=
  r.rows.filter (fun rr => decide (rowKey r.cols rr = k))

/-- The rows one left row contributes to the outer join: the row joined
with each key-matching right row, or padded with `Cell.na` when no right
row matches. -/
def leftBranch (l r : DataFrame) (lr : List Cell) : List (List Cell) :=
  let ms := matchingRows r (rowKey l.cols lr)
  if ms.isEmpty then [lr ++ List.replicate (rightNonKeyCols l r).length Cell.na]
  else ms.map (fun rr => lr ++ rowNonKey r.cols rr)

/-- The left-derived rows of the outer join: each left row joined with its
key-matching right rows, or padded with `Cell.na` when no right row
matches. -/
def joinRowsLeft (l r : DataFrame) : List (List Cell) :=
  l.rows.flatMap (leftBranch l r)

/-- The right-only rows of the outer join: right rows whose key appears in
no left row, with the left non-key columns filled with `Cell.na` and the
key columns taken from the right row. -/
def joinRowsRight (l r : DataFrame) : List (List Cell) :=
  (r.rows.filter (fun rr => decide (rowKey r.cols rr ∉ dfKeys l))).map
    (fun rr =>
      l.cols.map (fun c => if c ∈ mergeKeys then getCell r.cols rr c else Cell.na)
        ++ rowNonKey r.cols rr)

/-- `pd.merge(l, r, on=['Country', 'Year'], how='outer')` once both frames
have the key columns: every key of either side survives; rows matched on the
key are combined, unmatched sides are filled with `Cell.na`.  Result columns
are the left columns followed by the right non-key columns, with overlapping
non-key labels suffixed.  (Row order is an implementation convention of
pandas that no claim depends on; left rows come first here.) -/
def outerJoin (l r : DataFrame) : DataFrame :=
  ⟨joinCols l r, joinRowsLeft l r ++ joinRowsRight l r⟩

/-- A cell holding a JSON number (an `int64`-dtyped entry). -/
def numCell : Cell → Bool
  | .val (.num _) => true
  | _ => false

/-- A cell holding a JSON string. -/
def strCell : Cell → Bool
  | .val (.jstr _) => true
  | _ => false

/-- A cell holding a JSON boolean. -/
def boolCell : Cell → Bool
  | .val (.jbool _) => true
  | _ => false

/-- Python hashability of a cell's value: dicts and lists are unhashable
(`pd.merge` raises `TypeError` when factorizing a key column holding
one); scalars and NaN are hashable. -/
def hashableCell : Cell → Bool
  | .val (.obj _) => false
  | .val (.arr _) => false
  | _ => true

/-- The pandas dtype of a column, as far as merge compatibility goes. -/
inductive Dtype where
  | int64
  | float64
  | boolean
  | obj
  deriving DecidableEq

def Dtype.isNumeric : Dtype → Bool
  | .int64 => true
  | .float64 => true
  | _ => false

/-- The dtype pandas infers for one column of the modelled frame: all
integers is `int64`, integers with NaN is `float64`, all booleans is
`bool`, anything else (strings, mixed values, an empty column) is
`object`. -/
def colDtype (df : DataFrame) (c : String) : Dtype :=
  let cells := getColCells df c
  if cells.isEmpty then .obj
  else if cells.all numCell then .int64
  else if cells.all (fun x => numCell x || decide (x = Cell.na)) then .float64
  else if cells.all boolCell then .boolean
  else .obj

/-- Merge-key dtype compatibility: two numeric dtypes merge, equal dtypes
merge, and any other pair (e.g. `int64` against `object`) makes `pd.merge`
raise a `MergeError` (a `ValueError`). -/
def dtypeCompatible (a b : Dtype) : Bool :=
  (a.isNumeric && b.isNumeric) || decide (a = b)

/-- Every key cell of the frame is hashable, so factorizing the compound
key cannot raise. -/
def keyHashable (df : DataFrame) : Bool :=
  df.rows.all (fun row => hashableCell (getCell df.cols row "Country") &&
    hashableCell (getCell df.cols row "Year"))

/-- `pd.merge(l, r, on=['Country', 'Year'], how='outer')`: a `KeyError`
when either frame lacks one of the key columns; a `ValueError`
(`MergeError`) when the key columns' dtypes are incompatible; a
`TypeError` when a key cell holds an unhashable value (a dict or a list);
the outer join otherwise. -/
def pdMerge (l r : DataFrame) : Except PyError DataFrame :=
  if "Country" ∈ l.cols ∧ "Year" ∈ l.cols ∧ "Country" ∈ r.cols ∧ "Year" ∈ r.cols then
    if dtypeCompatible (colDtype l "Country") (colDtype r "Country") &&
        dtypeCompatible (colDtype l "Year") (colDtype r "Year") then
      if keyHashable l && keyHashable r then
        .ok (outerJoin l r)
      else
        .error (.typeError "unhashable type in merge key")
    else
      .error (.valueError "incompatible merge key dtypes")
  else
    .error (.keyError "merge key not found")

def errMsg : PyError → String
  | .requestException => "request exception"
  | .valueError m => "ValueError: " ++ m
  | .typeError m => "TypeError: " ++ m
  | .keyError k => "KeyError: " ++ k
  | .indexError => "IndexError"
  | .attributeError m => "AttributeError: " ++ m

/-- One iteration of the loop at app.py lines 87-93: skip empty frames;
otherwise try the outer join, and on an exception keep the accumulated frame
and print the diagnostic. -/
def mergeStep (acc : DataFrame × List String) (df : DataFrame) : DataFrame × List String :=
  if df.isEmpty then acc
  else
    match pdMerge acc.1 df with
    | .ok m => (m, acc.2)
    | .error e => (acc.1, acc.2 ++ ["Error merging data: " ++ errMsg e])

/-- The whole merge loop: `data = anchor` followed by one `mergeStep` per
remaining table, in order; the second component collects the printed merge
diagnostics. -/
def mergeFold (anchor : DataFrame) (dfs : List DataFrame) : DataFrame × List String :=
  dfs.foldl mergeStep (anchor, [])

/-- The merged table for a sequence of tables whose first element is the
anchor (the shape `update_graphs` uses with the population table first). -/
def mergeAll (tables : List DataFrame) : DataFrame :=
  match tables with
  | [] => emptyDF
  | anchor :: rest => (mergeFold anchor rest).1

/-! ### Auxiliary definitions used by the statements -/

/-- The data of one provider record: its country reference, its year field
and its observation value. -/
abbrev RecData := Json × Json × Json

/-- A provider record `{"country": cv, "date": dv, "value": vv}` — the shape
the upstream API documents for its observation records. -/
def mkRecord (t : RecData) : Json :=
  .obj (.fcons "country" t.1 (.fcons "date" t.2.1 (.fcons "value" t.2.2 .fnil)))

def mkRecords (ts : List RecData) : List Json := ts.map mkRecord

/-- A well-formed provider envelope `[metadata, records]`. -/
def recordEnvelope (meta : Json) (ts : List RecData) : Json :=
  .arr (.cons meta (.cons (.arr (JsonList.ofList (mkRecords ts))) .nil))

/-- The string a country reference normalizes to in the dict branch:
`x.get('value', 'Unknown')`. -/
def objValue (cv : Json) : Json :=
  match cv with
  | .obj fs => (lookupField fs "value").getD (.jstr "Unknown")
  | _ => .null

/-- The year cell produced by `.astype(int)` for one record (meaningful when
the coercion succeeds). -/
def coercedCell (t : RecData) : Cell :=
  match coerceInt (.val t.2.1) with
  | .ok c => c
  | .error _ => .na

/-- The row `pd.DataFrame` builds for one record of the provider shape. -/
def rowOf (t : RecData) : List Cell := [.val t.1, .val t.2.1, .val t.2.2]

/-- The normalized output row for a record in the dict-country branch. -/
def outRowObj (t : RecData) : List Cell :=
  [.val (objValue t.1), coercedCell t, .val t.2.2]

/-- The normalized output row for a record in the passthrough branch. -/
def outRowStr (t : RecData) : List Cell :=
  [.val t.1, coercedCell t, .val t.2.2]

/-- Both join key columns are present. -/
def HasMergeCols (df : DataFrame) : Prop :=
  "Country" ∈ df.cols ∧ "Year" ∈ df.cols

/-- Every row has exactly one cell per column. -/
def Rect (df : DataFrame) : Prop :=
  ∀ r ∈ df.rows, r.length = df.cols.length

/-- A frame shaped like a normalized IndicatorTable: key columns present and
rows aligned with the columns. -/
def WFc (df : DataFrame) : Prop := HasMergeCols df ∧ Rect df

/-- `WFc` plus the data-model invariant that (Country, Year) keys are not
duplicated within one table. -/
def WFk (df : DataFrame) : Prop := WFc df ∧ (dfKeys df).Nodup

/-- The data-model's key typing for a normalized IndicatorTable: every row
has a string `Country` cell and an integer `Year` cell (the schema every
successful fetch produces: `Country` from a string or normalized object
reference, `Year` from `astype(int)`). -/
def KeyTyped (df : DataFrame) : Prop :=
  ∀ row ∈ df.rows, strCell (getCell df.cols row "Country") = true ∧
    numCell (getCell df.cols row "Year") = true

instance (df : DataFrame) : Decidable (HasMergeCols df) := by
  unfold HasMergeCols; infer_instance

instance (df : DataFrame) : Decidable (Rect df) := by
  unfold Rect; infer_instance

instance (df : DataFrame) : Decidable (WFc df) := by
  unfold WFc; infer_instance

instance (df : DataFrame) : Decidable (WFk df) := by
  unfold WFk; infer_instance

instance (df : DataFrame) : Decidable (KeyTyped df) := by
  unfold KeyTyped; infer_instance

/-- The anchor table of the spec's merge scenario: years 2000-2002 for
country "world" under the population indicator. -/
def scenAnchor : DataFrame :=
  ⟨["Country", "Year", "SP.POP.TOTL"],
   [[.val (.jstr "world"), .val (.num 2000), .val (.num 10)],
    [.val (.jstr "world"), .val (.num 2001), .val (.num 11)],
    [.val (.jstr "world"), .val (.num 2002), .val (.num 12)]]⟩

/-- The second table of the spec's merge scenario: only year 2001. -/
def scenSecond : DataFrame :=
  ⟨["Country", "Year", "SP.DYN.BIRT.IN"],
   [[.val (.jstr "world"), .val (.num 2001), .val (.num 7)]]⟩

/-- The (world, 2001) key. -/
def key2001 : Cell × Cell := (.val (.jstr "world"), .val (.num 2001))

/-- An anchor with a duplicated (world, 2001) key. -/
def dupAnchor : DataFrame :=
  ⟨["Country", "Year", "SP.POP.TOTL"],
   [[.val (.jstr "world"), .val (.num 2001), .val (.num 1)],
    [.val (.jstr "world"), .val (.num 2001), .val (.num 2)]]⟩

/-- A non-empty frame without the join key columns (merging it raises a
`KeyError` that the loop catches). -/
def noKeyDF : DataFrame := ⟨["X"], [[Cell.na]]⟩

/-- A response whose second record's year `"abc"` cannot be coerced. -/
def badYearResp : HttpResponse :=
  .body (some (recordEnvelope .null
    [(.jstr "World", .jstr "2000", .num 5), (.jstr "World", .jstr "abc", .num 6)]))

/-- A response whose first record's country is an object but whose second
record's country is a plain string. -/
def mixedObjFirstResp : HttpResponse :=
  .body (some (recordEnvelope .null
    [(.obj (.fcons "value" (.jstr "India") .fnil), .jstr "2000", .num 5),
     (.jstr "India", .jstr "2001", .num 6)]))

/-- A response whose first record's country is a plain string but whose
second record's country is the object `{"value": "India"}`. -/
def mixedStrFirstResp : HttpResponse :=
  .body (some (recordEnvelope .null
    [(.jstr "India", .jstr "2000", .num 5),
     (.obj (.fcons "value" (.jstr "India") .fnil), .jstr "2001", .num 6)]))

/-- The table the fetch produces for `mixedStrFirstResp`: the second row's
country is the raw dict, passed through without normalization. -/
def mixedStrFirstDF : DataFrame :=
  ⟨["Country", "Year", "SP.POP.TOTL"],
   [[.val (.jstr "India"), .val (.num 2000), .val (.num 5)],
    [.val (.obj (.fcons "value" (.jstr "India") .fnil)), .val (.num 2001), .val (.num 6)]]⟩

/-! ### General helper lemmas -/

theorem JsonList.toList_ofList (xs : List Json) : (JsonList.ofList xs).toList = xs := by
  induction xs with
  | nil => rfl
  | cons x xs ih => simp [JsonList.ofList, JsonList.toList, ih]

theorem foldl_mergeStep_all_empty (dfs : List DataFrame) (acc : DataFrame × List String)
    (h : ∀ df ∈ dfs, df.isEmpty = true) :
    List.foldl mergeStep acc dfs = acc := by
  induction dfs generalizing acc with
  | nil => rfl
  | cons d ds ih =>
      have hd : d.isEmpty = true := h d (by simp)
      simp only [List.foldl_cons, mergeStep, hd, if_true]
      exact ih acc (fun df hm => h df (by simp [hm]))

/-! ### Claim C1 — fetch and transport/JSON failures -/

/-- C1 counterexample: on a transport failure (the `requests.get` call
raising), `fetch_vital_stats_data` does NOT return an empty table — the
exception propagates to the caller, because only `response.json()` is inside
the `try` block.  This refutes the claim that fetch never raises on any
transport failure. -/
theorem fetch_transport_failure_cex :
    fetch_vital_stats_data "SP.POP.TOTL" "world" .transportError =
      (.error .requestException, []) ∧
    exceptIsOk (fetch_vital_stats_data "SP.POP.TOTL" "world" .transportError).1 = false :=
  ⟨rfl, rfl⟩

/-- C1 amended: an invalid JSON body is caught and degrades to an empty
table with a diagnostic, but a transport failure (network error, timeout,
connection error — an exception from the HTTP call itself) propagates to
the caller. -/
theorem fetch_failure_degradation (ind c : String) :
    fetch_vital_stats_data ind c (.body none) = (.ok emptyDF, ["Invalid JSON response"]) ∧
    fetch_vital_stats_data ind c .transportError = (.error .requestException, []) :=
  ⟨rfl, rfl⟩

/-! ### Claim C2 — records with non-coercible years -/

/-- C2 counterexample: a response with one good record (year `"2000"`) and
one record whose year `"abc"` cannot be coerced makes the whole fetch raise
a `ValueError` from `astype(int)`; the sibling valid record is not retained
in any output table. -/
theorem fetch_bad_year_crash_cex :
    (fetch_vital_stats_data "SP.POP.TOTL" "world" badYearResp).1 =
      .error (.valueError "invalid literal for int: abc") ∧
    exceptIsOk (fetch_vital_stats_data "SP.POP.TOTL" "world" badYearResp).1 = false :=
  ⟨rfl, rfl⟩

/-! ### Claim C4 — malformed envelopes degrade to an empty table -/

/-- C4: for every parsed JSON envelope (array) with fewer than 2 elements,
or whose element 1 is not a list, fetch returns the empty table and reports
the condition on the diagnostic log. -/
theorem fetch_no_data_empty_table (ind c : String) (elts : List Json)
    (h : elts.length < 2 ∨ (2 ≤ elts.length ∧ (elts.getD 1 .null).isArr = false)) :
    fetch_vital_stats_data ind c (.body (some (.arr (JsonList.ofList elts)))) =
      (.ok emptyDF, ["No data available for " ++ ind ++ " in " ++ c]) := by
  unfold fetch_vital_stats_data
  simp only [pyLen, pyIndex, JsonList.toList_ofList]
  rcases h with h | ⟨h2, hne⟩
  · simp [h]
  · have hlt : ¬ elts.length < 2 := by omega
    have h1 : 1 < elts.length := by omega
    have hg : elts[1]? = some elts[1] := List.getElem?_eq_getElem h1
    have hgd : elts.getD 1 Json.null = elts[1] := by
      simp [List.getD, hg]
    rw [hgd] at hne
    simp only [hlt, if_false, hg]
    cases hh : elts[1] <;> simp_all [Json.isArr]

/-- C4 witness: the one-element envelope `[null]`. -/
theorem fetch_no_data_empty_table_wit :
    fetch_vital_stats_data "SP.POP.TOTL" "world"
        (.body (some (.arr (JsonList.ofList [Json.null])))) =
      (.ok emptyDF, ["No data available for " ++ "SP.POP.TOTL" ++ " in " ++ "world"]) :=
  fetch_no_data_empty_table "SP.POP.TOTL" "world" [Json.null] (Or.inl (by decide))

/-! ### Claim C5 (counterexample) — key coverage of the merge -/

/-- C5 counterexample: the (world, 2001) key is present in the input table
`scenSecond`, yet (a) when the anchor is the empty no-column frame a fetch
failure produces, every join raises and is caught, so the key appears ZERO
times in the output; (b) when the anchor duplicates the key, it appears
TWICE; and (c) for `mixedStrFirstDF` — a real fetch output, see C7's
counterexample — whose second row has a raw dict in its `Country` cell, the
join raises a `TypeError` (unhashable key) that the loop catches, so that
row's key also appears ZERO times.  All three refute "each key present in
any input table appears exactly once in the unified output" as a statement
about every input sequence. -/
theorem merge_key_coverage_cex :
    (key2001 ∈ dfKeys scenSecond ∧
      List.count key2001 (dfKeys (mergeAll [emptyDF, scenSecond])) = 0 ∧
      List.count key2001 (dfKeys (mergeAll [dupAnchor, scenSecond])) = 2) ∧
    ((Cell.val (.obj (.fcons "value" (.jstr "India") .fnil)), Cell.val (.num 2001)) ∈
        dfKeys mixedStrFirstDF ∧
      List.count
        ((Cell.val (.obj (.fcons "value" (.jstr "India") .fnil)), Cell.val (.num 2001)))
        (dfKeys (mergeAll [scenAnchor, mixedStrFirstDF])) = 0) := by
  decide

/-! ### Claim C6 (counterexample) — canonical schema of fetched tables -/

/-- C6 counterexample: a response matching the documented record grammar
(each country reference a string or a `value` object) but whose FIRST record
has an object country and whose second has a plain-string country makes the
fetch raise an `AttributeError` (the string has no `.get`), so no table with
the canonical schema is produced. -/
theorem fetch_mixed_country_crash_cex :
    (fetch_vital_stats_data "SP.POP.TOTL" "world" mixedObjFirstResp).1 =
      .error (.attributeError "object has no attribute get") ∧
    exceptIsOk (fetch_vital_stats_data "SP.POP.TOTL" "world" mixedObjFirstResp).1 = false :=
  ⟨rfl, rfl⟩

/-! ### Claim C7 (counterexample) — country normalization is per-response -/

/-- C7 counterexample: when the first record's country is a plain string,
the whole column passes through unchanged, so a later record's country
object `{"value": "India"}` is NOT normalized to `"India"` — the raw dict
lands in the `Country` column. -/
theorem fetch_first_record_branch_cex :
    (fetch_vital_stats_data "SP.POP.TOTL" "world" mixedStrFirstResp).1 = .ok mixedStrFirstDF ∧
    getCell mixedStrFirstDF.cols (mixedStrFirstDF.rows.getD 1 []) "Country" =
      .val (.obj (.fcons "value" (.jstr "India") .fnil)) ∧
    getCell mixedStrFirstDF.cols (mixedStrFirstDF.rows.getD 1 []) "Country" ≠
      .val (.jstr "India") :=
  ⟨rfl, rfl, by decide⟩

/-! ### Claim C8 (counterexample) — order dependence of key coverage -/

/-- C8 counterexample: the same two tables merged in the two orders give
different key sets, in two ways.  With the empty no-column frame as anchor
every join raises and is caught, so the non-anchor table's keys are lost;
and with `mixedStrFirstDF` (a real fetch output whose second `Country` cell
is a raw dict) in the sequence, the order decides which side's keys survive
the caught `TypeError`. -/
theorem merge_order_dependence_cex :
    ([emptyDF, scenSecond].Perm [scenSecond, emptyDF] ∧
      key2001 ∈ dfKeys (mergeAll [scenSecond, emptyDF]) ∧
      key2001 ∉ dfKeys (mergeAll [emptyDF, scenSecond])) ∧
    ([scenAnchor, mixedStrFirstDF].Perm [mixedStrFirstDF, scenAnchor] ∧
      (Cell.val (.jstr "world"), Cell.val (.num 2000)) ∈
        dfKeys (mergeAll [scenAnchor, mixedStrFirstDF]) ∧
      (Cell.val (.jstr "world"), Cell.val (.num 2000)) ∉
        dfKeys (mergeAll [mixedStrFirstDF, scenAnchor])) := by
  refine ⟨⟨List.Perm.swap _ _ _, by decide, by decide⟩,
    List.Perm.swap _ _ _, by decide, by decide⟩

/-! ### Claim C9 — all-empty tail is the identity of the merge fold -/

/-- C9: merging an anchor with a sequence of tables that are all empty
returns the anchor unchanged, with no columns added, no rows dropped and no
diagnostics. -/
theorem merge_empty_tables_identity (anchor : DataFrame) (dfs : List DataFrame)
    (h : ∀ df ∈ dfs, df.isEmpty = true) :
    mergeFold anchor dfs = (anchor, []) :=
  foldl_mergeStep_all_empty dfs (anchor, []) h

/-- C9 witness: the scenario anchor with two empty tables. -/
theorem merge_empty_tables_identity_wit :
    mergeFold scenAnchor [emptyDF, emptyDF] = (scenAnchor, []) :=
  merge_empty_tables_identity scenAnchor [emptyDF, emptyDF] (by decide)

/-! ### Claim C10 — zero-record lists make fetch raise -/

/-- C10: for every well-formed envelope whose element 1 is the empty record
list, fetch raises: the projection `df[['Country', 'date', 'value']]` fails
with a `KeyError` on the column-less frame `pd.DataFrame([])`, so no empty
IndicatorTable is returned. -/
theorem fetch_zero_records_raises (ind c : String) (meta : Json) (rest : JsonList) :
    fetch_vital_stats_data ind c (.body (some (.arr (.cons meta (.cons (.arr .nil) rest))))) =
      (.error (.keyError "columns not in index"), []) := by
  unfold fetch_vital_stats_data
  simp only [pyLen, pyIndex, JsonList.toList]
  have hlt : ¬ (meta :: Json.arr JsonList.nil :: rest.toList).length < 2 := by
    simp
  simp only [hlt, if_false, List.getElem?_cons_succ, List.getElem?_cons_zero]
  rfl

end Census

namespace Census

/-! ### Record-pipeline lemmas: fetch on provider-shaped responses -/

theorem mapM_map_ok {α β γ : Type} (f : β → Except PyError γ) (g : α → β) (gg : α → γ)
    (l : List α) (h : ∀ a ∈ l, f (g a) = .ok (gg a)) :
    (l.map g).mapM f = .ok (l.map gg) := by
  induction l with
  | nil => rfl
  | cons a l ih =>
      rw [List.map_cons, List.mapM_cons, h a (by simp),
        ih (fun x hx => h x (by simp [hx]))]
      rfl

theorem mapM_map_error {α β γ : Type} (f : β → Except PyError γ) (g : α → β)
    (l : List α) (h : ∃ a ∈ l, exceptIsOk (f (g a)) = false) :
    ∃ e, (l.map g).mapM f = .error e := by
  induction l with
  | nil => simp at h
  | cons a l ih =>
      rw [List.map_cons, List.mapM_cons]
      cases hfa : f (g a) with
      | error e => exact ⟨e, rfl⟩
      | ok b =>
          obtain ⟨x, hx, hbad⟩ := h
          rcases List.mem_cons.1 hx with rfl | hx'
          · rw [hfa] at hbad; simp [exceptIsOk] at hbad
          · obtain ⟨e, he⟩ := ih ⟨x, hx', hbad⟩
            refine ⟨e, ?_⟩
            show ((l.map g).mapM f >>= fun xs => pure (b :: xs)) = _
            rw [he]
            rfl

theorem except_bind_ok {α β : Type} (a : α) (f : α → Except PyError β) :
    (Except.ok a >>= f) = f a := rfl

theorem exceptIsOk_map {α β : Type} (e : Except PyError α) (f : α → β) :
    exceptIsOk (e.map f) = exceptIsOk e := by
  cases e <;> rfl

theorem collectCols_records (t : RecData) (ts : List RecData) :
    collectCols (mkRecords (t :: ts)) = ["country", "date", "value"] := by
  show List.foldl collectColsStep (collectColsStep [] (mkRecord t)) (mkRecords ts) = _
  have h0 : collectColsStep [] (mkRecord t) = ["country", "date", "value"] := rfl
  rw [h0]
  induction ts with
  | nil => rfl
  | cons u us ih => exact ih

theorem mkDataFrame_records (t : RecData) (ts : List RecData) :
    mkDataFrame (mkRecords (t :: ts)) =
      ⟨["country", "date", "value"], (t :: ts).map rowOf⟩ := by
  unfold mkDataFrame
  rw [collectCols_records]
  show DataFrame.mk _ ((mkRecords (t :: ts)).map (recordRow ["country", "date", "value"])) = _
  congr 1
  unfold mkRecords
  rw [List.map_map]
  rfl

theorem isDictCell_val (j : Json) : isDictCell (.val j) = j.isObj := by
  cases j <;> rfl

theorem coerceInt_ok_num (cl c' : Cell) (h : coerceInt cl = .ok c') :
    ∃ n : Int, c' = .val (.num n) := by
  cases cl with
  | na => simp [coerceInt] at h
  | val j =>
      cases j with
      | num n => exact ⟨n, by simpa [coerceInt] using h.symm⟩
      | jbool b =>
          refine ⟨if b then 1 else 0, ?_⟩
          simpa [coerceInt] using h.symm
      | jstr s =>
          cases hp : parsePyInt s with
          | none => simp [coerceInt, hp] at h
          | some n =>
              simp [coerceInt, hp] at h
              exact ⟨n, h.symm⟩
      | null => simp [coerceInt] at h
      | arr l => simp [coerceInt] at h
      | obj fs => simp [coerceInt] at h

theorem coercedCell_ok (t : RecData) (h : exceptIsOk (coerceInt (.val t.2.1)) = true) :
    coerceInt (Cell.val t.2.1) = .ok (coercedCell t) := by
  unfold coercedCell
  cases hc : coerceInt (Cell.val t.2.1) with
  | ok c => rfl
  | error e => rw [hc] at h; simp [exceptIsOk] at h

theorem coercedCell_num (u : RecData) (h : exceptIsOk (coerceInt (.val u.2.1)) = true) :
    ∃ n : Int, coercedCell u = .val (.num n) :=
  coerceInt_ok_num _ _ (coercedCell_ok u h)

theorem normCountry_obj (t : RecData) (ts : List RecData)
    (hobj : ∀ u ∈ t :: ts, (u.1).isObj = true) :
    normCountry ⟨["country", "date", "value"], (t :: ts).map rowOf⟩ =
      .ok ⟨["country", "date", "value", "Country"],
           (t :: ts).map (fun u => rowOf u ++ [.val (objValue u.1)])⟩ := by
  have ht : t.1.isObj = true := hobj t (by simp)
  unfold normCountry
  rw [if_pos]
  case hc =>
    show (true && isDictCell (getCell ["country", "date", "value"] (rowOf t) "country")) = true
    show (true && isDictCell (.val t.1)) = true
    rw [isDictCell_val, ht]
    rfl
  have hmap : ((t :: ts).map rowOf).mapM
      (fun r => pyGetValue (getCell (DataFrame.mk ["country", "date", "value"]
        ((t :: ts).map rowOf)).cols r "country")) =
      .ok ((t :: ts).map (fun u => Cell.val (objValue u.1))) := by
    apply mapM_map_ok
    intro u hu
    have hu1 : u.1.isObj = true := hobj u hu
    obtain ⟨fs, hfs⟩ : ∃ fs, u.1 = Json.obj fs := by
      cases hj : u.1 <;> simp [Json.isObj, hj] at hu1 ⊢
    show pyGetValue (.val u.1) = Except.ok (Cell.val (objValue u.1))
    rw [hfs]
    rfl
  rw [hmap]
  show Except.ok (setCol _ "Country" _) = _
  unfold setCol
  show Except.ok (DataFrame.mk (["country", "date", "value"] ++ ["Country"])
    ((((t :: ts).map rowOf).zip ((t :: ts).map (fun u => Cell.val (objValue u.1)))).map
      (fun p => p.1 ++ [p.2]))) = _
  rw [List.zip_map', List.map_map]
  rfl

theorem normCountry_str (t : RecData) (ts : List RecData)
    (ht : t.1.isObj = false) :
    normCountry ⟨["country", "date", "value"], (t :: ts).map rowOf⟩ =
      .ok ⟨["Country", "date", "value"], (t :: ts).map rowOf⟩ := by
  unfold normCountry
  rw [if_neg]
  · rfl
  · show ¬ ((true && isDictCell (getCell ["country", "date", "value"] (rowOf t) "country")) = true)
    show ¬ ((true && isDictCell (.val t.1)) = true)
    rw [isDictCell_val, ht]
    simp

theorem project_obj (t : RecData) (ts : List RecData) :
    project ⟨["country", "date", "value", "Country"],
             (t :: ts).map (fun u => rowOf u ++ [.val (objValue u.1)])⟩
        ["Country", "date", "value"] =
      .ok ⟨["Country", "date", "value"],
           (t :: ts).map (fun u => [.val (objValue u.1), .val u.2.1, .val u.2.2])⟩ := by
  unfold project
  rw [if_pos]
  case hc => rfl
  congr 1
  show DataFrame.mk _ (((t :: ts).map (fun u => rowOf u ++ [.val (objValue u.1)])).map _) = _
  rw [List.map_map]
  rfl

theorem project_str (t : RecData) (ts : List RecData) :
    project ⟨["Country", "date", "value"], (t :: ts).map rowOf⟩
        ["Country", "date", "value"] =
      .ok ⟨["Country", "date", "value"],
           (t :: ts).map (fun u => [.val u.1, .val u.2.1, .val u.2.2])⟩ := by
  unfold project
  rw [if_pos]
  case hc => rfl
  congr 1
  show DataFrame.mk _ (((t :: ts).map rowOf).map _) = _
  rw [List.map_map]
  rfl

theorem astype_year (ind : String) (a v : RecData → Cell) (l : List RecData)
    (hco : ∀ u ∈ l, exceptIsOk (coerceInt (.val u.2.1)) = true) :
    astypeIntCol ⟨["Country", "Year", ind], l.map (fun u => [a u, .val u.2.1, v u])⟩ "Year" =
      .ok ⟨["Country", "Year", ind], l.map (fun u => [a u, coercedCell u, v u])⟩ := by
  unfold astypeIntCol
  show Except.map (fun rows => DataFrame.mk ["Country", "Year", ind] rows)
    ((List.mapM (fun r => (coerceInt (r.getD 1 .na)).map (fun cell => r.set 1 cell))
      (l.map (fun u => [a u, .val u.2.1, v u])))) = _
  rw [mapM_map_ok _ _ (fun u => [a u, coercedCell u, v u]) l]
  · rfl
  · intro u hu
    show (coerceInt (.val u.2.1)).map _ = _
    rw [coercedCell_ok u (hco u hu)]
    rfl

theorem normalizeRecords_obj (ind : String) (t : RecData) (ts : List RecData)
    (hobj : ∀ u ∈ t :: ts, (u.1).isObj = true)
    (hco : ∀ u ∈ t :: ts, exceptIsOk (coerceInt (.val u.2.1)) = true) :
    normalizeRecords ind (mkRecords (t :: ts)) =
      .ok ⟨["Country", "Year", ind], (t :: ts).map outRowObj⟩ := by
  unfold normalizeRecords
  rw [mkDataFrame_records]
  simp only [normCountry_obj t ts hobj, except_bind_ok, project_obj]
  show astypeIntCol ⟨["Country", "Year", ind],
    (t :: ts).map (fun u => [.val (objValue u.1), .val u.2.1, .val u.2.2])⟩ "Year" = _
  rw [astype_year ind (fun u => .val (objValue u.1)) (fun u => .val u.2.2) (t :: ts) hco]
  rfl

theorem normalizeRecords_str (ind : String) (t : RecData) (ts : List RecData)
    (ht : t.1.isObj = false)
    (hco : ∀ u ∈ t :: ts, exceptIsOk (coerceInt (.val u.2.1)) = true) :
    normalizeRecords ind (mkRecords (t :: ts)) =
      .ok ⟨["Country", "Year", ind], (t :: ts).map outRowStr⟩ := by
  unfold normalizeRecords
  rw [mkDataFrame_records]
  simp only [normCountry_str t ts ht, except_bind_ok, project_str]
  show astypeIntCol ⟨["Country", "Year", ind],
    (t :: ts).map (fun u => [.val u.1, .val u.2.1, .val u.2.2])⟩ "Year" = _
  rw [astype_year ind (fun u => .val u.1) (fun u => .val u.2.2) (t :: ts) hco]
  rfl

theorem fetch_recordEnvelope (ind c : String) (meta : Json) (ts : List RecData) :
    fetch_vital_stats_data ind c (.body (some (recordEnvelope meta ts))) =
      (normalizeRecords ind (mkRecords ts), []) := by
  unfold fetch_vital_stats_data recordEnvelope
  simp only [pyLen, pyIndex, JsonList.toList]
  show (if (2 : Nat) < 2 then _ else _) = _
  rw [if_neg (by omega)]
  simp only [List.getElem?_cons_succ, List.getElem?_cons_zero]
  rw [JsonList.toList_ofList]

/-! ### Claim C2 (amended theorem) -/

/-- C2 amended: for every provider-shaped response (records with
object-shaped country references) containing at least one record whose year
cannot be coerced to an integer, fetch raises an exception from
`astype(int)` — it does not exclude the bad record and keep the rest. -/
theorem fetch_bad_year_raises (ind c : String) (meta : Json) (ts : List RecData)
    (hobj : ∀ u ∈ ts, (u.1).isObj = true)
    (hbad : ∃ u ∈ ts, exceptIsOk (coerceInt (.val u.2.1)) = false) :
    ∃ e, (fetch_vital_stats_data ind c (.body (some (recordEnvelope meta ts)))).1 =
      .error e := by
  rw [fetch_recordEnvelope]
  show ∃ e, normalizeRecords ind (mkRecords ts) = .error e
  cases ts with
  | nil => simp at hbad
  | cons t ts' =>
      unfold normalizeRecords
      rw [mkDataFrame_records]
      simp only [normCountry_obj t ts' hobj, except_bind_ok, project_obj]
      show ∃ e, astypeIntCol ⟨["Country", "Year", ind],
        (t :: ts').map (fun u => [.val (objValue u.1), .val u.2.1, .val u.2.2])⟩ "Year" =
        .error e
      unfold astypeIntCol
      have herr := mapM_map_error
        (fun r => (coerceInt (r.getD 1 .na)).map (fun cell => r.set 1 cell))
        (fun u : RecData => [.val (objValue u.1), .val u.2.1, .val u.2.2]) (t :: ts') ?hex
      case hex =>
        obtain ⟨u, hu, hbadu⟩ := hbad
        refine ⟨u, hu, ?_⟩
        show exceptIsOk ((coerceInt (.val u.2.1)).map _) = false
        rw [exceptIsOk_map]
        exact hbadu
      obtain ⟨e, he⟩ := herr
      refine ⟨e, ?_⟩
      show Except.map (fun rows => DataFrame.mk ["Country", "Year", ind] rows)
        ((List.mapM (fun r => (coerceInt (r.getD 1 .na)).map (fun cell => r.set 1 cell))
          ((t :: ts').map (fun u => [.val (objValue u.1), .val u.2.1, .val u.2.2])))) = _
      rw [he]
      rfl

/-- C2 amended witness: a concrete two-record response with years `"2000"`
and `"abc"`. -/
theorem fetch_bad_year_raises_wit :
    ∃ e, (fetch_vital_stats_data "SP.POP.TOTL" "world" (.body (some (recordEnvelope .null
      [(.obj (.fcons "value" (.jstr "World") .fnil), .jstr "2000", .num 5),
       (.obj .fnil, .jstr "abc", .num 6)])))).1 = .error e :=
  fetch_bad_year_raises "SP.POP.TOTL" "world" .null
    [(.obj (.fcons "value" (.jstr "World") .fnil), .jstr "2000", .num 5),
     (.obj .fnil, .jstr "abc", .num 6)]
    (by decide) (by decide)

/-! ### Claim C6 (amended theorem) -/

/-- C6 amended: for every response with at least one record, provider-shaped
records, integer-coercible years, and a country-shape discipline in which an
object-shaped FIRST country implies all countries are object-shaped (a
mixed object-then-string response makes fetch raise instead, see the
counterexample), fetch produces a table whose columns are exactly
`Country`, `Year` and the requested indicator code, with every `Year` cell
an integer. -/
theorem fetch_wellformed_schema (ind c : String) (meta : Json) (t : RecData) (ts : List RecData)
    (hco : ∀ u ∈ t :: ts, exceptIsOk (coerceInt (.val u.2.1)) = true)
    (hhom : t.1.isObj = true → ∀ u ∈ t :: ts, (u.1).isObj = true) :
    ∃ df, fetch_vital_stats_data ind c (.body (some (recordEnvelope meta (t :: ts)))) =
        (.ok df, []) ∧
      df.cols = ["Country", "Year", ind] ∧
      ∀ r ∈ df.rows, ∃ n : Int, getCell df.cols r "Year" = .val (.num n) := by
  rw [fetch_recordEnvelope]
  cases hobj : t.1.isObj with
  | true =>
      refine ⟨⟨["Country", "Year", ind], (t :: ts).map outRowObj⟩, ?_, rfl, ?_⟩
      · rw [normalizeRecords_obj ind t ts (hhom hobj) hco]
      · intro r hr
        obtain ⟨u, hu, rfl⟩ := List.mem_map.1 hr
        obtain ⟨n, hn⟩ := coercedCell_num u (hco u hu)
        refine ⟨n, ?_⟩
        show coercedCell u = _
        exact hn
  | false =>
      refine ⟨⟨["Country", "Year", ind], (t :: ts).map outRowStr⟩, ?_, rfl, ?_⟩
      · rw [normalizeRecords_str ind t ts hobj hco]
      · intro r hr
        obtain ⟨u, hu, rfl⟩ := List.mem_map.1 hr
        obtain ⟨n, hn⟩ := coercedCell_num u (hco u hu)
        refine ⟨n, ?_⟩
        show coercedCell u = _
        exact hn

/-- C6 amended witness: a concrete two-record all-object response. -/
theorem fetch_wellformed_schema_wit :
    ∃ df, fetch_vital_stats_data "SP.POP.TOTL" "world" (.body (some (recordEnvelope .null
        [(.obj (.fcons "value" (.jstr "World") .fnil), .jstr "2000", .num 5),
         (.obj (.fcons "value" (.jstr "World") .fnil), .jstr "2001", .num 6)]))) =
      (.ok df, []) ∧
      df.cols = ["Country", "Year", "SP.POP.TOTL"] ∧
      ∀ r ∈ df.rows, ∃ n : Int, getCell df.cols r "Year" = .val (.num n) :=
  fetch_wellformed_schema "SP.POP.TOTL" "world" .null
    (.obj (.fcons "value" (.jstr "World") .fnil), .jstr "2000", .num 5)
    [(.obj (.fcons "value" (.jstr "World") .fnil), .jstr "2001", .num 6)]
    (by decide) (fun _ => by decide)

/-! ### Claim C7 (amended theorem) -/

/-- C7 amended: the country normalization is decided by the FIRST record's
shape.  When every record's country reference is an object, each normalizes
to its `value` field (the literal `"Unknown"` when the field is absent, so
`{"value": "India"}` gives `"India"` and `{}` gives `"Unknown"`); when the
first record's country is not an object, every record's country — object or
not — passes through unchanged. -/
theorem fetch_country_normalization (ind c : String) (meta : Json) (t : RecData)
    (ts : List RecData)
    (hco : ∀ u ∈ t :: ts, exceptIsOk (coerceInt (.val u.2.1)) = true) :
    ((∀ u ∈ t :: ts, (u.1).isObj = true) →
      ∃ df, fetch_vital_stats_data ind c (.body (some (recordEnvelope meta (t :: ts)))) =
          (.ok df, []) ∧
        getColCells df "Country" = (t :: ts).map (fun u => Cell.val (objValue u.1))) ∧
    (t.1.isObj = false →
      ∃ df, fetch_vital_stats_data ind c (.body (some (recordEnvelope meta (t :: ts)))) =
          (.ok df, []) ∧
        getColCells df "Country" = (t :: ts).map (fun u => Cell.val u.1)) := by
  constructor
  · intro hobj
    refine ⟨⟨["Country", "Year", ind], (t :: ts).map outRowObj⟩, ?_, ?_⟩
    · rw [fetch_recordEnvelope, normalizeRecords_obj ind t ts hobj hco]
    · show ((t :: ts).map outRowObj).map
        (fun r => getCell ["Country", "Year", ind] r "Country") = _
      rw [List.map_map]
      rfl
  · intro hstr
    refine ⟨⟨["Country", "Year", ind], (t :: ts).map outRowStr⟩, ?_, ?_⟩
    · rw [fetch_recordEnvelope, normalizeRecords_str ind t ts hstr hco]
    · show ((t :: ts).map outRowStr).map
        (fun r => getCell ["Country", "Year", ind] r "Country") = _
      rw [List.map_map]
      rfl

/-- C7 amended witness: `{"value": "India"}` normalizes to `"India"` and
`{}` to `"Unknown"` in an all-object response. -/
theorem fetch_country_normalization_wit :
    ∃ df, fetch_vital_stats_data "SP.POP.TOTL" "world" (.body (some (recordEnvelope .null
        [(.obj (.fcons "value" (.jstr "India") .fnil), .jstr "2000", .num 5),
         (.obj .fnil, .jstr "2001", .num 6)]))) =
      (.ok df, []) ∧
      getColCells df "Country" = [Cell.val (.jstr "India"), Cell.val (.jstr "Unknown")] :=
  (fetch_country_normalization "SP.POP.TOTL" "world" .null
    (.obj (.fcons "value" (.jstr "India") .fnil), .jstr "2000", .num 5)
    [(.obj .fnil, .jstr "2001", .num 6)]
    (by decide)).1 (by decide)

end Census

namespace Census

/-! ### Outer-join key lemmas -/

theorem append_sfx_not_key (s sfx k : String) (hsfx : sfx = "_x" ∨ sfx = "_y")
    (hk : k ∈ mergeKeys) : s ++ sfx ≠ k := by
  intro heq
  have hd : s.data ++ sfx.data = k.data := by
    have := congrArg String.data heq
    simpa [String.data_append] using this
  have hk2 : k = "Country" ∨ k = "Year" := by simpa [mergeKeys] using hk
  rcases hk2 with hk2 | hk2
  · subst hk2
    rcases hsfx with rfl | rfl
    · have h2 : s.data ++ ['_', 'x'] = ['C', 'o', 'u', 'n', 't'] ++ ['r', 'y'] := by
        simpa using hd
      have := (List.append_inj' h2 rfl).2
      simp at this
    · have h2 : s.data ++ ['_', 'y'] = ['C', 'o', 'u', 'n', 't'] ++ ['r', 'y'] := by
        simpa using hd
      have := (List.append_inj' h2 rfl).2
      simp at this
  · subst hk2
    rcases hsfx with rfl | rfl
    · have h2 : s.data ++ ['_', 'x'] = ['Y', 'e'] ++ ['a', 'r'] := by
        simpa using hd
      have := (List.append_inj' h2 rfl).2
      simp at this
    · have h2 : s.data ++ ['_', 'y'] = ['Y', 'e'] ++ ['a', 'r'] := by
        simpa using hd
      have := (List.append_inj' h2 rfl).2
      simp at this

theorem suffixShared_eq_key (other : List String) (sfx k : String)
    (hsfx : sfx = "_x" ∨ sfx = "_y") (hk : k ∈ mergeKeys) (d : String) :
    ((if d ∉ mergeKeys ∧ d ∈ other then d ++ sfx else d) = k ↔ d = k) := by
  by_cases hcond : d ∉ mergeKeys ∧ d ∈ other
  · rw [if_pos hcond]
    constructor
    · intro h; exact absurd h (append_sfx_not_key d sfx k hsfx hk)
    · intro h; exact absurd (h ▸ hk) hcond.1
  · rw [if_neg hcond]

theorem getCell_map_cols (f : String → String) (cols : List String) (row : List Cell)
    (k : String) (hf : ∀ d, f d = k ↔ d = k) :
    getCell (cols.map f) row k = getCell cols row k := by
  induction cols generalizing row with
  | nil => rfl
  | cons c cs ih =>
      rw [List.map_cons]
      show (if f c = k then _ else _) = (if c = k then _ else _)
      by_cases hc : c = k
      · rw [if_pos ((hf c).2 hc), if_pos hc]
      · rw [if_neg (fun hh => hc ((hf c).1 hh)), if_neg hc]
        exact ih row.tail

theorem getCell_suffixShared (own other : List String) (sfx : String) (row : List Cell)
    (k : String) (hsfx : sfx = "_x" ∨ sfx = "_y") (hk : k ∈ mergeKeys) :
    getCell (suffixShared own other sfx) row k = getCell own row k :=
  getCell_map_cols _ own row k (suffixShared_eq_key other sfx k hsfx hk)

theorem getCell_append_left (cols1 cols2 : List String) (row1 row2 : List Cell)
    (k : String) (hk : k ∈ cols1) (hlen : row1.length = cols1.length) :
    getCell (cols1 ++ cols2) (row1 ++ row2) k = getCell cols1 row1 k := by
  induction cols1 generalizing row1 with
  | nil => cases hk
  | cons c cs ih =>
      cases row1 with
      | nil => simp at hlen
      | cons x xs =>
          rw [List.cons_append, List.cons_append]
          show (if c = k then _ else _) = (if c = k then _ else _)
          by_cases hc : c = k
          · rw [if_pos hc, if_pos hc]
            rfl
          · rw [if_neg hc, if_neg hc]
            have hk' : k ∈ cs := by
              rcases List.mem_cons.1 hk with h | h
              · exact absurd h.symm hc
              · exact h
            have hlen' : xs.length = cs.length := by simpa using hlen
            exact ih xs hk' hlen'

theorem getCell_map_row (cols : List String) (g : String → Cell) (k : String)
    (hk : k ∈ cols) : getCell cols (cols.map g) k = g k := by
  induction cols with
  | nil => cases hk
  | cons c cs ih =>
      rw [List.map_cons]
      show (if c = k then _ else _) = _
      by_cases hc : c = k
      · rw [if_pos hc]
        show g c = g k
        rw [hc]
      · rw [if_neg hc]
        have hk' : k ∈ cs := by
          rcases List.mem_cons.1 hk with h | h
          · exact absurd h.symm hc
          · exact h
        exact ih hk'



theorem suffixShared_length (own other : List String) (sfx : String) :
    (suffixShared own other sfx).length = own.length := by
  simp [suffixShared]

theorem key_mem_suffixShared (own other : List String) (sfx k : String)
    (hk : k ∈ mergeKeys) (hmem : k ∈ own) : k ∈ suffixShared own other sfx := by
  unfold suffixShared
  refine List.mem_map.2 ⟨k, hmem, ?_⟩
  rw [if_neg]
  intro hcond
  exact hcond.1 hk

theorem country_mem_mergeKeys : "Country" ∈ mergeKeys := by decide

theorem year_mem_mergeKeys : "Year" ∈ mergeKeys := by decide

theorem rowKey_join_left (l r : DataFrame) (hlc : HasMergeCols l)
    (lr : List Cell) (hlen : lr.length = l.cols.length) (tl : List Cell) :
    rowKey (joinCols l r) (lr ++ tl) = rowKey l.cols lr := by
  unfold rowKey joinCols
  have hlen' : lr.length = (suffixShared l.cols r.cols "_x").length := by
    rw [suffixShared_length]; exact hlen
  have hc : getCell (suffixShared l.cols r.cols "_x" ++ rightNonKeyCols l r) (lr ++ tl)
      "Country" = getCell l.cols lr "Country" := by
    rw [getCell_append_left _ _ _ _ _
      (key_mem_suffixShared _ _ _ _ country_mem_mergeKeys hlc.1) hlen']
    exact getCell_suffixShared l.cols r.cols "_x" lr "Country" (Or.inl rfl)
      country_mem_mergeKeys
  have hy : getCell (suffixShared l.cols r.cols "_x" ++ rightNonKeyCols l r) (lr ++ tl)
      "Year" = getCell l.cols lr "Year" := by
    rw [getCell_append_left _ _ _ _ _
      (key_mem_suffixShared _ _ _ _ year_mem_mergeKeys hlc.2) hlen']
    exact getCell_suffixShared l.cols r.cols "_x" lr "Year" (Or.inl rfl)
      year_mem_mergeKeys
  rw [hc, hy]

theorem rowKey_join_right (l r : DataFrame) (hlc : HasMergeCols l) (rr : List Cell) :
    rowKey (joinCols l r)
      ((l.cols.map (fun c => if c ∈ mergeKeys then getCell r.cols rr c else Cell.na))
        ++ rowNonKey r.cols rr) = rowKey r.cols rr := by
  unfold rowKey joinCols
  have hlen' : (l.cols.map (fun c => if c ∈ mergeKeys then getCell r.cols rr c
      else Cell.na)).length = (suffixShared l.cols r.cols "_x").length := by
    rw [suffixShared_length, List.length_map]
  have key_step : ∀ k, k ∈ mergeKeys → k ∈ l.cols →
      getCell (suffixShared l.cols r.cols "_x" ++ rightNonKeyCols l r)
        ((l.cols.map (fun c => if c ∈ mergeKeys then getCell r.cols rr c else Cell.na))
          ++ rowNonKey r.cols rr) k = getCell r.cols rr k := by
    intro k hk hkl
    rw [getCell_append_left _ _ _ _ _ (key_mem_suffixShared _ _ _ _ hk hkl) hlen']
    rw [getCell_suffixShared l.cols r.cols "_x" _ k (Or.inl rfl) hk]
    rw [getCell_map_row l.cols _ k hkl]
    rw [if_pos hk]
  rw [key_step "Country" country_mem_mergeKeys hlc.1,
      key_step "Year" year_mem_mergeKeys hlc.2]

theorem filter_zip_length {β γ : Type} (xs : List String) (as : List β) (bs : List γ)
    (p : String → Bool) (ha : as.length = xs.length) (hb : bs.length = xs.length) :
    ((xs.zip as).filter (fun q => p q.1)).length =
      ((xs.zip bs).filter (fun q => p q.1)).length := by
  induction xs generalizing as bs with
  | nil =>
      cases as with
      | nil => cases bs with
        | nil => rfl
        | cons b bs' => simp at hb
      | cons a as' => simp at ha
  | cons x xs ih =>
      cases as with
      | nil => simp at ha
      | cons a as' =>
          cases bs with
          | nil => simp at hb
          | cons b bs' =>
              rw [List.zip_cons_cons, List.zip_cons_cons]
              by_cases hp : p x
              · simp only [List.filter_cons, hp, if_true]
                simp only [List.length_cons]
                rw [ih as' bs' (by simpa using ha) (by simpa using hb)]
              · simp only [List.filter_cons, hp, if_false]
                exact ih as' bs' (by simpa using ha) (by simpa using hb)

theorem rowNonKey_length_eq (l r : DataFrame) (rr : List Cell)
    (hlen : rr.length = r.cols.length) :
    (rowNonKey r.cols rr).length = (rightNonKeyCols l r).length := by
  unfold rowNonKey rightNonKeyCols
  rw [List.length_map, List.length_map]
  exact filter_zip_length r.cols rr (suffixShared r.cols l.cols "_y")
    (fun c => decide (c ∉ mergeKeys)) hlen (suffixShared_length _ _ _)



theorem map_filter_comm {α β : Type} (f : α → β) (p : β → Bool) (l' : List α) :
    (l'.filter (fun a => p (f a))).map f = (l'.map f).filter p := by
  induction l' with
  | nil => rfl
  | cons a rest ih =>
      rw [List.map_cons, List.filter_cons, List.filter_cons]
      by_cases hp : p (f a) = true
      · rw [if_pos hp, if_pos hp, List.map_cons, ih]
      · rw [if_neg hp, if_neg hp, ih]

theorem map_flatMap' {α β γ : Type} (g : β → γ) (f : α → List β) (l' : List α) :
    (l'.flatMap f).map g = l'.flatMap (fun a => (f a).map g) := by
  induction l' with
  | nil => rfl
  | cons a rest ih => simp only [List.flatMap_cons, List.map_append, ih]

theorem filter_key_len_le_one {α β : Type} [DecidableEq β] (f : α → β) (l' : List α)
    (k : β) (hn : (l'.map f).Nodup) :
    (l'.filter (fun a => decide (f a = k))).length ≤ 1 := by
  induction l' with
  | nil => simp
  | cons a rest ih =>
      rw [List.map_cons, List.nodup_cons] at hn
      rw [List.filter_cons]
      by_cases hfa : f a = k
      · rw [if_pos (by simp [hfa])]
        have hnil : rest.filter (fun b => decide (f b = k)) = [] := by
          rw [List.filter_eq_nil_iff]
          intro b hb
          simp only [decide_eq_true_eq]
          intro hfb
          exact hn.1 (List.mem_map.2 ⟨b, hb, by rw [hfb, hfa]⟩)
        rw [hnil]
        simp
      · rw [if_neg (by simp [hfa])]
        exact ih hn.2

theorem joinRowsLeft_eq (l r : DataFrame) :
    joinRowsLeft l r = l.rows.flatMap (leftBranch l r) := rfl

theorem leftBranch_keys_const (l r : DataFrame) (hlc : HasMergeCols l) (lr : List Cell)
    (hlen : lr.length = l.cols.length) :
    ∀ x ∈ (leftBranch l r lr).map (rowKey (joinCols l r)), x = rowKey l.cols lr := by
  intro x hx
  obtain ⟨row, hrow, rfl⟩ := List.mem_map.1 hx
  unfold leftBranch at hrow
  cases hms : matchingRows r (rowKey l.cols lr) with
  | nil =>
      rw [hms] at hrow
      simp only [List.isEmpty_nil, if_true, List.mem_singleton] at hrow
      rw [hrow]
      exact rowKey_join_left l r hlc lr hlen _
  | cons m ms' =>
      rw [hms] at hrow
      simp only [List.isEmpty_cons, Bool.false_eq_true, if_false, List.mem_map] at hrow
      obtain ⟨rr, hrr, heq⟩ := hrow
      rw [← heq]
      exact rowKey_join_left l r hlc lr hlen _

theorem leftBranch_length_one (l r : DataFrame) (hnr : (dfKeys r).Nodup) (lr : List Cell) :
    (leftBranch l r lr).length = 1 := by
  unfold leftBranch
  cases hms : matchingRows r (rowKey l.cols lr) with
  | nil => simp
  | cons m ms' =>
      have hle : (matchingRows r (rowKey l.cols lr)).length ≤ 1 :=
        filter_key_len_le_one (rowKey r.cols) r.rows (rowKey l.cols lr) hnr
      rw [hms] at hle
      simp only [List.length_cons] at hle
      have hms0 : ms' = [] := by
        cases ms' with
        | nil => rfl
        | cons x xs => simp at hle
      subst hms0
      simp

theorem leftBranch_keys_single (l r : DataFrame) (hlc : HasMergeCols l)
    (hnr : (dfKeys r).Nodup) (lr : List Cell) (hlen : lr.length = l.cols.length) :
    (leftBranch l r lr).map (rowKey (joinCols l r)) = [rowKey l.cols lr] := by
  have hlen1 : ((leftBranch l r lr).map (rowKey (joinCols l r))).length = 1 := by
    rw [List.length_map]
    exact leftBranch_length_one l r hnr lr
  obtain ⟨x, hx⟩ := List.length_eq_one.1 hlen1
  rw [hx]
  have := leftBranch_keys_const l r hlc lr hlen x (by rw [hx]; simp)
  rw [this]

theorem flatMap_singleton_branches {α β : Type} (g : α → List β) (key : α → β)
    (rows : List α) (h : ∀ a ∈ rows, g a = [key a]) :
    rows.flatMap g = rows.map key := by
  induction rows with
  | nil => rfl
  | cons a rest ih =>
      rw [List.flatMap_cons, List.map_cons, h a (by simp),
        ih (fun b hb => h b (by simp [hb]))]
      rfl

theorem joinRowsLeft_keys (l r : DataFrame) (hlc : HasMergeCols l) (hrl : Rect l)
    (hnr : (dfKeys r).Nodup) :
    (joinRowsLeft l r).map (rowKey (joinCols l r)) = dfKeys l := by
  rw [joinRowsLeft_eq, map_flatMap']
  exact flatMap_singleton_branches _ _ l.rows
    (fun lr hlr => leftBranch_keys_single l r hlc hnr lr (hrl lr hlr))

theorem joinRowsLeft_keys_mem (l r : DataFrame) (hlc : HasMergeCols l) (hrl : Rect l)
    (k : Cell × Cell) :
    (k ∈ (joinRowsLeft l r).map (rowKey (joinCols l r)) ↔ k ∈ dfKeys l) := by
  rw [joinRowsLeft_eq, map_flatMap']
  rw [List.mem_flatMap]
  unfold dfKeys
  rw [List.mem_map]
  constructor
  · rintro ⟨lr, hlr, hk⟩
    exact ⟨lr, hlr, (leftBranch_keys_const l r hlc lr (hrl lr hlr) k hk).symm⟩
  · rintro ⟨lr, hlr, hk⟩
    refine ⟨lr, hlr, ?_⟩
    cases hms : leftBranch l r lr with
    | nil =>
        exfalso
        have h1 := leftBranch_keys_const l r hlc lr (hrl lr hlr)
        unfold leftBranch at hms
        cases hm2 : matchingRows r (rowKey l.cols lr) with
        | nil => rw [hm2] at hms; simp at hms
        | cons m ms' => rw [hm2] at hms; simp at hms
    | cons row rows' =>
        have hmem : rowKey (joinCols l r) row ∈
            (row :: rows').map (rowKey (joinCols l r)) := by simp
        have hmem' : rowKey (joinCols l r) row ∈
            (leftBranch l r lr).map (rowKey (joinCols l r)) := by
          rw [hms]; exact hmem
        have := leftBranch_keys_const l r hlc lr (hrl lr hlr) _ hmem'
        rw [← hk, ← this]
        exact hmem

theorem joinRowsRight_keys (l r : DataFrame) (hlc : HasMergeCols l) :
    (joinRowsRight l r).map (rowKey (joinCols l r)) =
      (dfKeys r).filter (fun k => decide (k ∉ dfKeys l)) := by
  unfold joinRowsRight
  rw [List.map_map]
  have hcongr : (r.rows.filter (fun rr => decide (rowKey r.cols rr ∉ dfKeys l))).map
      ((rowKey (joinCols l r)) ∘
        (fun rr => (l.cols.map (fun c => if c ∈ mergeKeys then getCell r.cols rr c
          else Cell.na)) ++ rowNonKey r.cols rr)) =
      (r.rows.filter (fun rr => decide (rowKey r.cols rr ∉ dfKeys l))).map
        (rowKey r.cols) := by
    apply List.map_congr_left
    intro rr _
    exact rowKey_join_right l r hlc rr
  rw [hcongr]
  unfold dfKeys
  exact map_filter_comm (rowKey r.cols) (fun k => decide (k ∉ l.rows.map (rowKey l.cols)))
    r.rows



theorem dfKeys_outerJoin_eq (l r : DataFrame) (hlc : HasMergeCols l) (hrl : Rect l)
    (hnr : (dfKeys r).Nodup) :
    dfKeys (outerJoin l r) =
      dfKeys l ++ (dfKeys r).filter (fun k => decide (k ∉ dfKeys l)) := by
  show (joinRowsLeft l r ++ joinRowsRight l r).map (rowKey (joinCols l r)) = _
  rw [List.map_append, joinRowsLeft_keys l r hlc hrl hnr, joinRowsRight_keys l r hlc]

theorem dfKeys_outerJoin_mem (l r : DataFrame) (hlc : HasMergeCols l) (hrl : Rect l)
    (k : Cell × Cell) :
    (k ∈ dfKeys (outerJoin l r) ↔ k ∈ dfKeys l ∨ k ∈ dfKeys r) := by
  show k ∈ (joinRowsLeft l r ++ joinRowsRight l r).map (rowKey (joinCols l r)) ↔ _
  rw [List.map_append, List.mem_append, joinRowsLeft_keys_mem l r hlc hrl,
    joinRowsRight_keys l r hlc, List.mem_filter]
  constructor
  · rintro (h | ⟨h, _⟩)
    · exact Or.inl h
    · exact Or.inr h
  · rintro (h | h)
    · exact Or.inl h
    · by_cases hl : k ∈ dfKeys l
      · exact Or.inl hl
      · exact Or.inr ⟨h, by simpa using hl⟩

theorem dfKeys_outerJoin_nodup (l r : DataFrame) (hlc : HasMergeCols l) (hrl : Rect l)
    (hnl : (dfKeys l).Nodup) (hnr : (dfKeys r).Nodup) :
    (dfKeys (outerJoin l r)).Nodup := by
  rw [dfKeys_outerJoin_eq l r hlc hrl hnr]
  refine List.Nodup.append hnl (hnr.filter _) ?_
  intro k hk hk2
  rw [List.mem_filter] at hk2
  have := hk2.2
  simp only [decide_eq_true_eq] at this
  exact this hk

theorem HasMergeCols_outerJoin (l r : DataFrame) (hlc : HasMergeCols l) :
    HasMergeCols (outerJoin l r) := by
  constructor
  · show "Country" ∈ joinCols l r
    unfold joinCols
    exact List.mem_append_left _
      (key_mem_suffixShared _ _ _ _ country_mem_mergeKeys hlc.1)
  · show "Year" ∈ joinCols l r
    unfold joinCols
    exact List.mem_append_left _
      (key_mem_suffixShared _ _ _ _ year_mem_mergeKeys hlc.2)

theorem joinCols_length (l r : DataFrame) :
    (joinCols l r).length = l.cols.length + (rightNonKeyCols l r).length := by
  unfold joinCols
  rw [List.length_append, suffixShared_length]

theorem Rect_outerJoin (l r : DataFrame) (hrl : Rect l) (hrr : Rect r) :
    Rect (outerJoin l r) := by
  intro row hrow
  show row.length = (joinCols l r).length
  rw [joinCols_length]
  rcases List.mem_append.1 hrow with hrow | hrow
  · rw [joinRowsLeft_eq] at hrow
    rw [List.mem_flatMap] at hrow
    obtain ⟨lr, hlr, hbr⟩ := hrow
    have hlrlen : lr.length = l.cols.length := hrl lr hlr
    unfold leftBranch at hbr
    cases hms : matchingRows r (rowKey l.cols lr) with
    | nil =>
        rw [hms] at hbr
        simp only [List.isEmpty_nil, if_true, List.mem_singleton] at hbr
        rw [hbr]
        simp [hlrlen]
    | cons m ms' =>
        rw [hms] at hbr
        simp only [List.isEmpty_cons, Bool.false_eq_true, if_false, List.mem_map] at hbr
        obtain ⟨rr, hrr', heq⟩ := hbr
        have hrrmem : rr ∈ r.rows := by
          have : rr ∈ matchingRows r (rowKey l.cols lr) := by rw [hms]; exact hrr'
          exact List.mem_of_mem_filter this
        rw [← heq, List.length_append, hlrlen,
          rowNonKey_length_eq l r rr (hrr rr hrrmem)]
  · unfold joinRowsRight at hrow
    rw [List.mem_map] at hrow
    obtain ⟨rr, hrr', heq⟩ := hrow
    have hrrmem : rr ∈ r.rows := List.mem_of_mem_filter hrr'
    rw [← heq, List.length_append, List.length_map,
      rowNonKey_length_eq l r rr (hrr rr hrrmem)]

theorem WFc_outerJoin (l r : DataFrame) (hl : WFc l) (hr : WFc r) :
    WFc (outerJoin l r) :=
  ⟨HasMergeCols_outerJoin l r hl.1, Rect_outerJoin l r hl.2 hr.2⟩



theorem strCell_eq (c : Cell) (h : strCell c = true) : ∃ s, c = .val (.jstr s) := by
  cases c with
  | na => simp [strCell] at h
  | val j => cases j <;> simp [strCell] at h ⊢

theorem numCell_eq (c : Cell) (h : numCell c = true) : ∃ n, c = .val (.num n) := by
  cases c with
  | na => simp [numCell] at h
  | val j => cases j <;> simp [numCell] at h ⊢

theorem rows_cons_of_ne_nil (df : DataFrame) (hne : df.rows ≠ []) :
    ∃ r0 rest, df.rows = r0 :: rest := by
  cases h : df.rows with
  | nil => exact absurd h hne
  | cons r0 rest => exact ⟨r0, rest, rfl⟩

theorem colDtype_country_typed (df : DataFrame) (ht : KeyTyped df) (hne : df.rows ≠ []) :
    colDtype df "Country" = .obj := by
  obtain ⟨r0, rest, hrows⟩ := rows_cons_of_ne_nil df hne
  have h0 := (ht r0 (by rw [hrows]; simp)).1
  obtain ⟨s, hs⟩ := strCell_eq _ h0
  unfold colDtype
  have hcells : getColCells df "Country" =
      Cell.val (.jstr s) :: rest.map (fun r => getCell df.cols r "Country") := by
    unfold getColCells
    rw [hrows, List.map_cons, hs]
  rw [hcells]
  simp [numCell, boolCell]

theorem colDtype_year_typed (df : DataFrame) (ht : KeyTyped df) (hne : df.rows ≠ []) :
    colDtype df "Year" = .int64 := by
  obtain ⟨r0, rest, hrows⟩ := rows_cons_of_ne_nil df hne
  unfold colDtype
  have hnil : (getColCells df "Year").isEmpty = false := by
    unfold getColCells
    rw [hrows, List.map_cons]
    rfl
  have hall : (getColCells df "Year").all numCell = true := by
    rw [List.all_eq_true]
    intro x hx
    obtain ⟨row, hrow, rfl⟩ := List.mem_map.1 hx
    exact (ht row hrow).2
  simp [hnil, hall]

theorem keyHashable_of_typed (df : DataFrame) (ht : KeyTyped df) :
    keyHashable df = true := by
  unfold keyHashable
  rw [List.all_eq_true]
  intro row hrow
  obtain ⟨hc, hy⟩ := ht row hrow
  obtain ⟨s, hs⟩ := strCell_eq _ hc
  obtain ⟨n, hn⟩ := numCell_eq _ hy
  rw [hs, hn]
  rfl

theorem pdMerge_ok_typed (l r : DataFrame) (hl : HasMergeCols l) (hr : HasMergeCols r)
    (htl : KeyTyped l) (htr : KeyTyped r) (hnel : l.rows ≠ []) (hner : r.rows ≠ []) :
    pdMerge l r = .ok (outerJoin l r) := by
  unfold pdMerge
  rw [if_pos ⟨hl.1, hl.2, hr.1, hr.2⟩,
    colDtype_country_typed l htl hnel, colDtype_country_typed r htr hner,
    colDtype_year_typed l htl hnel, colDtype_year_typed r htr hner,
    keyHashable_of_typed l htl, keyHashable_of_typed r htr]
  rfl

theorem leftBranch_ne_nil (l r : DataFrame) (lr : List Cell) :
    leftBranch l r lr ≠ [] := by
  unfold leftBranch
  cases hms : matchingRows r (rowKey l.cols lr) with
  | nil => simp
  | cons m ms' => simp

theorem outerJoin_rows_ne_nil (l r : DataFrame) (hnel : l.rows ≠ []) :
    (outerJoin l r).rows ≠ [] := by
  show joinRowsLeft l r ++ joinRowsRight l r ≠ []
  intro h
  rw [List.append_eq_nil] at h
  have h1 := h.1
  rw [joinRowsLeft_eq] at h1
  obtain ⟨r0, rest, hrows⟩ := rows_cons_of_ne_nil l hnel
  rw [hrows, List.flatMap_cons, List.append_eq_nil] at h1
  exact leftBranch_ne_nil l r r0 h1.1

theorem KeyTyped_outerJoin (l r : DataFrame) (hlc : HasMergeCols l) (hrl : Rect l)
    (htl : KeyTyped l) (htr : KeyTyped r) : KeyTyped (outerJoin l r) := by
  intro row hrow
  have hrow' : row ∈ joinRowsLeft l r ++ joinRowsRight l r := hrow
  rcases List.mem_append.1 hrow' with hl1 | hr1
  · rw [joinRowsLeft_eq, List.mem_flatMap] at hl1
    obtain ⟨lr, hlr, hbr⟩ := hl1
    have hkey : rowKey (joinCols l r) row = rowKey l.cols lr :=
      leftBranch_keys_const l r hlc lr (hrl lr hlr) _ (List.mem_map.2 ⟨row, hbr, rfl⟩)
    have hc : getCell (joinCols l r) row "Country" = getCell l.cols lr "Country" :=
      congrArg Prod.fst hkey
    have hy : getCell (joinCols l r) row "Year" = getCell l.cols lr "Year" :=
      congrArg Prod.snd hkey
    show strCell (getCell (joinCols l r) row "Country") = true ∧
      numCell (getCell (joinCols l r) row "Year") = true
    rw [hc, hy]
    exact htl lr hlr
  · unfold joinRowsRight at hr1
    rw [List.mem_map] at hr1
    obtain ⟨rr, hfilt, heq⟩ := hr1
    have hkey : rowKey (joinCols l r) row = rowKey r.cols rr := by
      rw [← heq]
      exact rowKey_join_right l r hlc rr
    have hc : getCell (joinCols l r) row "Country" = getCell r.cols rr "Country" :=
      congrArg Prod.fst hkey
    have hy : getCell (joinCols l r) row "Year" = getCell r.cols rr "Year" :=
      congrArg Prod.snd hkey
    show strCell (getCell (joinCols l r) row "Country") = true ∧
      numCell (getCell (joinCols l r) row "Year") = true
    rw [hc, hy]
    exact htr rr (List.mem_of_mem_filter hfilt)

theorem dfKeys_nil_of_empty (df : DataFrame) (h : WFc df) (he : df.isEmpty = true) :
    dfKeys df = [] := by
  have hcols : df.cols ≠ [] := by
    intro hc
    have := h.1.1
    rw [hc] at this
    cases this
  unfold DataFrame.isEmpty at he
  rw [Bool.or_eq_true] at he
  rcases he with he | he
  · rw [List.isEmpty_iff] at he
    unfold dfKeys
    rw [he]
    rfl
  · rw [List.isEmpty_iff] at he
    exact absurd he hcols

theorem rows_ne_nil_of_not_empty (df : DataFrame) (he : df.isEmpty = false) :
    df.rows ≠ [] := by
  intro h0
  unfold DataFrame.isEmpty at he
  rw [h0] at he
  simp at he

theorem mergeStep_keys (acc : DataFrame × List String) (df : DataFrame)
    (hacc : WFc acc.1) (hnacc : (dfKeys acc.1).Nodup) (htacc : KeyTyped acc.1)
    (hneacc : acc.1.rows ≠ [])
    (hdf : df.rows = [] ∨ (WFk df ∧ KeyTyped df)) :
    (WFc (mergeStep acc df).1 ∧ (dfKeys (mergeStep acc df).1).Nodup ∧
      KeyTyped (mergeStep acc df).1 ∧ (mergeStep acc df).1.rows ≠ []) ∧
    dfKeys (mergeStep acc df).1 =
      dfKeys acc.1 ++ (dfKeys df).filter (fun k => decide (k ∉ dfKeys acc.1)) := by
  unfold mergeStep
  by_cases he : df.isEmpty = true
  · rw [if_pos he]
    refine ⟨⟨hacc, hnacc, htacc, hneacc⟩, ?_⟩
    have hnil : dfKeys df = [] := by
      rcases hdf with hdf | hdf
      · unfold dfKeys
        rw [hdf]
        rfl
      · exact dfKeys_nil_of_empty df hdf.1.1 he
    rw [hnil]
    simp
  · have hner : df.rows ≠ [] :=
      rows_ne_nil_of_not_empty df (by rw [Bool.not_eq_true] at he; exact he)
    have hdf' : WFk df ∧ KeyTyped df := by
      rcases hdf with hdf | hdf
      · exact absurd hdf hner
      · exact hdf
    rw [if_neg he,
      pdMerge_ok_typed acc.1 df hacc.1 hdf'.1.1.1 htacc hdf'.2 hneacc hner]
    exact ⟨⟨WFc_outerJoin acc.1 df hacc hdf'.1.1,
        dfKeys_outerJoin_nodup acc.1 df hacc.1 hacc.2 hnacc hdf'.1.2,
        KeyTyped_outerJoin acc.1 df hacc.1 hacc.2 htacc hdf'.2,
        outerJoin_rows_ne_nil acc.1 df hneacc⟩,
      dfKeys_outerJoin_eq acc.1 df hacc.1 hacc.2 hdf'.1.2⟩

theorem mergeStep_keys_mem (acc : DataFrame × List String) (df : DataFrame)
    (hacc : WFc acc.1) (htacc : KeyTyped acc.1) (hneacc : acc.1.rows ≠ [])
    (hdf : df.rows = [] ∨ (WFc df ∧ KeyTyped df)) :
    (WFc (mergeStep acc df).1 ∧ KeyTyped (mergeStep acc df).1 ∧
      (mergeStep acc df).1.rows ≠ []) ∧
    ∀ k, (k ∈ dfKeys (mergeStep acc df).1 ↔ k ∈ dfKeys acc.1 ∨ k ∈ dfKeys df) := by
  unfold mergeStep
  by_cases he : df.isEmpty = true
  · rw [if_pos he]
    refine ⟨⟨hacc, htacc, hneacc⟩, fun k => ?_⟩
    have hnil : dfKeys df = [] := by
      rcases hdf with hdf | hdf
      · unfold dfKeys
        rw [hdf]
        rfl
      · exact dfKeys_nil_of_empty df hdf.1 he
    rw [hnil]
    simp
  · have hner : df.rows ≠ [] :=
      rows_ne_nil_of_not_empty df (by rw [Bool.not_eq_true] at he; exact he)
    have hdf' : WFc df ∧ KeyTyped df := by
      rcases hdf with hdf | hdf
      · exact absurd hdf hner
      · exact hdf
    rw [if_neg he,
      pdMerge_ok_typed acc.1 df hacc.1 hdf'.1.1 htacc hdf'.2 hneacc hner]
    exact ⟨⟨WFc_outerJoin acc.1 df hacc hdf'.1,
        KeyTyped_outerJoin acc.1 df hacc.1 hacc.2 htacc hdf'.2,
        outerJoin_rows_ne_nil acc.1 df hneacc⟩,
      dfKeys_outerJoin_mem acc.1 df hacc.1 hacc.2⟩

theorem foldl_mergeStep_keys (dfs : List DataFrame) (acc : DataFrame × List String)
    (hacc : WFc acc.1) (hnacc : (dfKeys acc.1).Nodup) (htacc : KeyTyped acc.1)
    (hneacc : acc.1.rows ≠ [])
    (hdfs : ∀ df ∈ dfs, df.rows = [] ∨ (WFk df ∧ KeyTyped df)) :
    WFc (List.foldl mergeStep acc dfs).1 ∧
    (dfKeys (List.foldl mergeStep acc dfs).1).Nodup ∧
    ∀ k, (k ∈ dfKeys (List.foldl mergeStep acc dfs).1 ↔
      k ∈ dfKeys acc.1 ∨ ∃ df ∈ dfs, k ∈ dfKeys df) := by
  induction dfs generalizing acc with
  | nil =>
      refine ⟨hacc, hnacc, fun k => ?_⟩
      simp
  | cons d ds ih =>
      have hd := hdfs d (by simp)
      obtain ⟨⟨hwf, hnd, htp, hne⟩, hkeys⟩ :=
        mergeStep_keys acc d hacc hnacc htacc hneacc hd
      rw [List.foldl_cons]
      obtain ⟨hwf', hnd', hmem'⟩ :=
        ih (mergeStep acc d) hwf hnd htp hne (fun df hdf => hdfs df (by simp [hdf]))
      refine ⟨hwf', hnd', fun k => ?_⟩
      rw [hmem' k, hkeys, List.mem_append, List.mem_filter]
      simp only [decide_eq_true_eq]
      constructor
      · rintro ((h | ⟨h, _⟩) | h)
        · exact Or.inl h
        · exact Or.inr ⟨d, by simp, h⟩
        · obtain ⟨df, hdf, hk⟩ := h
          exact Or.inr ⟨df, by simp [hdf], hk⟩
      · rintro (h | ⟨df, hdf, hk⟩)
        · exact Or.inl (Or.inl h)
        · rcases List.mem_cons.1 hdf with rfl | hdf'
          · by_cases hin : k ∈ dfKeys acc.1
            · exact Or.inl (Or.inl hin)
            · exact Or.inl (Or.inr ⟨hk, hin⟩)
          · exact Or.inr ⟨df, hdf', hk⟩

theorem foldl_mergeStep_keys_mem (dfs : List DataFrame) (acc : DataFrame × List String)
    (hacc : WFc acc.1) (htacc : KeyTyped acc.1) (hneacc : acc.1.rows ≠ [])
    (hdfs : ∀ df ∈ dfs, df.rows = [] ∨ (WFc df ∧ KeyTyped df)) :
    WFc (List.foldl mergeStep acc dfs).1 ∧
    ∀ k, (k ∈ dfKeys (List.foldl mergeStep acc dfs).1 ↔
      k ∈ dfKeys acc.1 ∨ ∃ df ∈ dfs, k ∈ dfKeys df) := by
  induction dfs generalizing acc with
  | nil =>
      refine ⟨hacc, fun k => ?_⟩
      simp
  | cons d ds ih =>
      have hd := hdfs d (by simp)
      obtain ⟨⟨hwf, htp, hne⟩, hmem⟩ := mergeStep_keys_mem acc d hacc htacc hneacc hd
      rw [List.foldl_cons]
      obtain ⟨hwf', hmem'⟩ :=
        ih (mergeStep acc d) hwf htp hne (fun df hdf => hdfs df (by simp [hdf]))
      refine ⟨hwf', fun k => ?_⟩
      rw [hmem' k, hmem k]
      constructor
      · rintro ((h | h) | h)
        · exact Or.inl h
        · exact Or.inr ⟨d, by simp, h⟩
        · obtain ⟨df, hdf, hk⟩ := h
          exact Or.inr ⟨df, by simp [hdf], hk⟩
      · rintro (h | ⟨df, hdf, hk⟩)
        · exact Or.inl (Or.inl h)
        · rcases List.mem_cons.1 hdf with rfl | hdf'
          · exact Or.inl (Or.inr hk)
          · exact Or.inr ⟨df, hdf', hk⟩

theorem mergeAll_keys_mem (l : List DataFrame)
    (h : ∀ df ∈ l, WFc df ∧ KeyTyped df ∧ df.rows ≠ []) (k : Cell × Cell) :
    (k ∈ dfKeys (mergeAll l) ↔ ∃ df ∈ l, k ∈ dfKeys df) := by
  cases l with
  | nil => simp [mergeAll, emptyDF, dfKeys]
  | cons a rest =>
      show k ∈ dfKeys (List.foldl mergeStep (a, []) rest).1 ↔ _
      have ha := h a (by simp)
      obtain ⟨_, hmem⟩ := foldl_mergeStep_keys_mem rest (a, []) ha.1 ha.2.1 ha.2.2
        (fun df hdf => Or.inr ⟨(h df (by simp [hdf])).1, (h df (by simp [hdf])).2.1⟩)
      rw [hmem k]
      constructor
      · rintro (hk | ⟨df, hdf, hk⟩)
        · exact ⟨a, by simp, hk⟩
        · exact ⟨df, by simp [hdf], hk⟩
      · rintro ⟨df, hdf, hk⟩
        rcases List.mem_cons.1 hdf with rfl | hdf'
        · exact Or.inl hk
        · exact Or.inr ⟨df, hdf', hk⟩



theorem mergeFold_append (anchor : DataFrame) (l1 l2 : List DataFrame) :
    mergeFold anchor (l1 ++ l2) = List.foldl mergeStep (mergeFold anchor l1) l2 := by
  unfold mergeFold
  rw [List.foldl_append]

theorem mergeStep_col_mem (acc : DataFrame × List String) (d : DataFrame) (c : String)
    (hc : c ∈ acc.1.cols) (hd : c ∈ mergeKeys ∨ c ∉ d.cols) :
    c ∈ (mergeStep acc d).1.cols := by
  unfold mergeStep
  by_cases he : d.isEmpty = true
  · rw [if_pos he]; exact hc
  · rw [if_neg he]
    cases hm : pdMerge acc.1 d with
    | error e => exact hc
    | ok m =>
        show c ∈ m.cols
        unfold pdMerge at hm
        by_cases hcond : "Country" ∈ acc.1.cols ∧ "Year" ∈ acc.1.cols ∧
            "Country" ∈ d.cols ∧ "Year" ∈ d.cols
        · rw [if_pos hcond] at hm
          by_cases hdt : (dtypeCompatible (colDtype acc.1 "Country") (colDtype d "Country") &&
              dtypeCompatible (colDtype acc.1 "Year") (colDtype d "Year")) = true
          · rw [if_pos hdt] at hm
            by_cases hhash : (keyHashable acc.1 && keyHashable d) = true
            · rw [if_pos hhash] at hm
              have hm2 : outerJoin acc.1 d = m := by
                injection hm
              rw [← hm2]
              show c ∈ joinCols acc.1 d
              unfold joinCols
              apply List.mem_append_left
              unfold suffixShared
              refine List.mem_map.2 ⟨c, hc, ?_⟩
              rw [if_neg]
              rintro ⟨hck, hcd⟩
              rcases hd with hd | hd
              · exact hck hd
              · exact hd hcd
            · rw [if_neg hhash] at hm
              cases hm
          · rw [if_neg hdt] at hm
            cases hm
        · rw [if_neg hcond] at hm
          cases hm
  
theorem foldl_mergeStep_col_mem (post : List DataFrame) (acc : DataFrame × List String)
    (c : String) (hc : c ∈ acc.1.cols)
    (hd : ∀ d ∈ post, c ∈ mergeKeys ∨ c ∉ d.cols) :
    c ∈ (List.foldl mergeStep acc post).1.cols := by
  induction post generalizing acc with
  | nil => exact hc
  | cons d ds ih =>
      rw [List.foldl_cons]
      exact ih (mergeStep acc d)
        (mergeStep_col_mem acc d c hc (hd d (by simp)))
        (fun d' hd' => hd d' (by simp [hd']))

/-- C3: the behaviour of the merge loop at a failing step.  With `acc` the
state after the tables before `df`, an empty `df` or a `df` whose join
raises (a caught exception) (1) leaves the accumulated frame unchanged,
(2) appends the `Error merging data` diagnostic exactly when the join
raised, (3) lets the fold continue over the remaining tables (no exception
propagates — `mergeStep` is total), and (4) every column accumulated so
far, in particular every successfully merged indicator's column, survives
to the final output provided no later table reuses its (non-key) name. -/
theorem merge_failure_tolerance (anchor : DataFrame) (pre post : List DataFrame)
    (df : DataFrame)
    (h : df.isEmpty = true ∨ exceptIsError (pdMerge (mergeFold anchor pre).1 df) = true) :
    (mergeFold anchor (pre ++ [df])).1 = (mergeFold anchor pre).1 ∧
    (df.isEmpty = false →
      ∃ e, pdMerge (mergeFold anchor pre).1 df = .error e ∧
        (mergeFold anchor (pre ++ [df])).2 =
          (mergeFold anchor pre).2 ++ ["Error merging data: " ++ errMsg e]) ∧
    mergeFold anchor (pre ++ df :: post) =
      List.foldl mergeStep (mergeFold anchor (pre ++ [df])) post ∧
    (∀ c ∈ (mergeFold anchor (pre ++ [df])).1.cols,
      (∀ d ∈ post, c ∈ mergeKeys ∨ c ∉ d.cols) →
      c ∈ (mergeFold anchor (pre ++ df :: post)).1.cols) := by
  have hstep : mergeFold anchor (pre ++ [df]) = mergeStep (mergeFold anchor pre) df := by
    rw [mergeFold_append]
    rfl
  have hcontinue : mergeFold anchor (pre ++ df :: post) =
      List.foldl mergeStep (mergeFold anchor (pre ++ [df])) post := by
    have : pre ++ df :: post = (pre ++ [df]) ++ post := by simp
    rw [this, mergeFold_append]
  refine ⟨?_, ?_, hcontinue, ?_⟩
  · rw [hstep]
    unfold mergeStep
    by_cases he : df.isEmpty = true
    · rw [if_pos he]
    · rcases h with h | h
      · exact absurd h he
      · rw [if_neg he]
        cases hm : pdMerge (mergeFold anchor pre).1 df with
        | error e => rfl
        | ok m => rw [hm] at h; simp [exceptIsError] at h
  · intro hne
    rcases h with h | h
    · rw [hne] at h; cases h
    · obtain ⟨e, he⟩ : ∃ e, pdMerge (mergeFold anchor pre).1 df = .error e := by
        cases hm : pdMerge (mergeFold anchor pre).1 df with
        | error e => exact ⟨e, rfl⟩
        | ok m => rw [hm] at h; simp [exceptIsError] at h
      refine ⟨e, he, ?_⟩
      rw [hstep]
      unfold mergeStep
      rw [if_neg (by rw [hne]; simp), he]
  · intro c hc hd
    rw [hcontinue]
    exact foldl_mergeStep_col_mem post _ c hc hd

/-- C3 witness: a non-empty frame without the key columns; its join raises,
is caught and reported, and the scenario tables before and after it are
unaffected. -/
theorem merge_failure_tolerance_wit :
    (mergeFold scenAnchor ([] ++ [noKeyDF])).1 = (mergeFold scenAnchor []).1 ∧
    (noKeyDF.isEmpty = false →
      ∃ e, pdMerge (mergeFold scenAnchor []).1 noKeyDF = .error e ∧
        (mergeFold scenAnchor ([] ++ [noKeyDF])).2 =
          (mergeFold scenAnchor []).2 ++ ["Error merging data: " ++ errMsg e]) ∧
    mergeFold scenAnchor ([] ++ noKeyDF :: [scenSecond]) =
      List.foldl mergeStep (mergeFold scenAnchor ([] ++ [noKeyDF])) [scenSecond] ∧
    (∀ c ∈ (mergeFold scenAnchor ([] ++ [noKeyDF])).1.cols,
      (∀ d ∈ [scenSecond], c ∈ mergeKeys ∨ c ∉ d.cols) →
      c ∈ (mergeFold scenAnchor ([] ++ noKeyDF :: [scenSecond])).1.cols) :=
  merge_failure_tolerance scenAnchor [] [scenSecond] noKeyDF (Or.inr (by decide))

/-- C5 amended: for an anchor that is a nonempty normalized IndicatorTable
— key columns present, rectangular rows, string `Country` and integer
`Year` cells (so `pd.merge` can neither reject the key dtypes nor hit an
unhashable key), and no duplicated (Country, Year) key (the data-model
invariant) — merged with tables that are each either empty or such an
IndicatorTable, every key present in any input appears EXACTLY once in the
merged output (the key list is duplicate-free and covers exactly the
union); and concretely, the spec's scenario: an anchor covering 2000-2002
merged with a table covering only 2001 yields three rows with the second
indicator null for 2000 and 2002 and populated for 2001. -/
theorem merge_key_coverage (anchor : DataFrame) (dfs : List DataFrame)
    (ha : WFk anchor) (hat : KeyTyped anchor) (hane : anchor.rows ≠ [])
    (hdfs : ∀ df ∈ dfs, df.rows = [] ∨ (WFk df ∧ KeyTyped df)) :
    ((dfKeys (mergeFold anchor dfs).1).Nodup ∧
      ∀ k, (k ∈ dfKeys (mergeFold anchor dfs).1 ↔
        k ∈ dfKeys anchor ∨ ∃ df ∈ dfs, k ∈ dfKeys df)) ∧
    mergeAll [scenAnchor, scenSecond] =
      ⟨["Country", "Year", "SP.POP.TOTL", "SP.DYN.BIRT.IN"],
       [[.val (.jstr "world"), .val (.num 2000), .val (.num 10), .na],
        [.val (.jstr "world"), .val (.num 2001), .val (.num 11), .val (.num 7)],
        [.val (.jstr "world"), .val (.num 2002), .val (.num 12), .na]]⟩ := by
  constructor
  · obtain ⟨_, hnd, hmem⟩ :=
      foldl_mergeStep_keys dfs (anchor, []) ha.1 ha.2 hat hane hdfs
    exact ⟨hnd, hmem⟩
  · decide

/-- C5 amended witness: the scenario input tables are well-formed, typed
and nonempty, and the coverage statement holds for them. -/
theorem merge_key_coverage_wit :
    (((dfKeys (mergeFold scenAnchor [scenSecond]).1).Nodup ∧
      ∀ k, (k ∈ dfKeys (mergeFold scenAnchor [scenSecond]).1 ↔
        k ∈ dfKeys scenAnchor ∨ ∃ df ∈ [scenSecond], k ∈ dfKeys df)) ∧
    mergeAll [scenAnchor, scenSecond] =
      ⟨["Country", "Year", "SP.POP.TOTL", "SP.DYN.BIRT.IN"],
       [[.val (.jstr "world"), .val (.num 2000), .val (.num 10), .na],
        [.val (.jstr "world"), .val (.num 2001), .val (.num 11), .val (.num 7)],
        [.val (.jstr "world"), .val (.num 2002), .val (.num 12), .na]]⟩) :=
  merge_key_coverage scenAnchor [scenSecond] (by decide) (by decide) (by decide)
    (by decide)

/-- C8 amended: for input sequences of nonempty normalized IndicatorTables
— key columns present, rectangular rows, string `Country` and integer
`Year` cells, so every join in the loop succeeds — the set of
(Country, Year) keys of the merged output is the union of the inputs' key
sets and hence invariant under permuting the input sequence.  With the
no-column empty frame a failed fetch produces, or with a frame carrying a
raw dict `Country` cell (both real fetch outputs), order matters — see the
counterexample. -/
theorem merge_key_coverage_perm (l1 l2 : List DataFrame)
    (h : ∀ df ∈ l1, WFc df ∧ KeyTyped df ∧ df.rows ≠ []) (hp : l1.Perm l2) :
    ∀ k, (k ∈ dfKeys (mergeAll l1) ↔ k ∈ dfKeys (mergeAll l2)) := by
  intro k
  rw [mergeAll_keys_mem l1 h k,
    mergeAll_keys_mem l2 (fun df hdf => h df (hp.symm.subset hdf)) k]
  constructor
  · rintro ⟨df, hdf, hk⟩
    exact ⟨df, hp.subset hdf, hk⟩
  · rintro ⟨df, hdf, hk⟩
    exact ⟨df, hp.symm.subset hdf, hk⟩

/-- C8 amended witness: the two scenario tables in both orders, at the
(world, 2001) key. -/
theorem merge_key_coverage_perm_wit :
    (key2001 ∈ dfKeys (mergeAll [scenAnchor, scenSecond]) ↔
      key2001 ∈ dfKeys (mergeAll [scenSecond, scenAnchor])) :=
  merge_key_coverage_perm [scenAnchor, scenSecond] [scenSecond, scenAnchor]
    (by decide) (List.Perm.swap scenSecond scenAnchor []) key2001

end Census
